import Mathlib

/-!
Adafruit Si4713 driver: command framing and response decoding.

A shallow embedding of `Adafruit_Si4713.cpp`.  The driver object becomes the
record `Dev`; every member function becomes a function `Dev → Option ...`
that threads the record.  The I2C bus and the Arduino pin/delay calls are
external: what the driver does to them is appended to `Dev.trace`, and the
bytes the bus hands back are consumed, in order, from `Dev.rx`.  A call that
needs a byte when `rx` is empty yields `none`: the device never answered and
the C++ loop would still be spinning.

Machine integers are natural numbers, reduced modulo `2^8` or `2^16` at the
places where the C++ stores into a `uint8_t` or `uint16_t`.
-/

namespace Si4713

/-- One externally visible action of the driver. -/
inductive Event where
  /-- The call `i2c_dev->write(buf, len)`, with the bytes put on the bus. -/
  | write (bytes : List Nat)
  /-- The call `i2c_dev->read(buf, len)`. -/
  | read (len : Nat)
  /-- The call `i2c_dev->write_then_read(out, outlen, in, inlen)`. -/
  | writeThenRead (out : List Nat) (len : Nat)
  /-- The call `delay(ms)`. -/
  | delay (ms : Nat)
  /-- The call `pinMode(pin, OUTPUT)`. -/
  | pinMode (pin : Int)
  /-- The call `digitalWrite(pin, HIGH)` when `high`, `digitalWrite(pin, LOW)` otherwise. -/
  | digitalWrite (pin : Int) (high : Bool)
  deriving DecidableEq

/-- The constants of `Adafruit_Si4713.h` that the source file uses.  The header
is not part of the sources at hand, so their values are parameters. -/
structure Consts where
  CMD_POWER_UP : Nat
  CMD_GET_REV : Nat
  CMD_SET_PROPERTY : Nat
  CMD_GET_INT_STATUS : Nat
  CMD_TX_TUNE_FREQ : Nat
  CMD_TX_TUNE_POWER : Nat
  CMD_TX_TUNE_MEASURE : Nat
  CMD_TX_TUNE_STATUS : Nat
  CMD_TX_ASQ_STATUS : Nat
  CMD_TX_RDS_BUFF : Nat
  CMD_TX_RDS_PS : Nat
  CMD_GPO_CTL : Nat
  CMD_GPO_SET : Nat
  STATUS_CTS : Nat
  PROP_REFCLK_FREQ : Nat
  PROP_TX_COMPONENT_ENABLE : Nat
  PROP_TX_AUDIO_DEVIATION : Nat
  PROP_TX_RDS_DEVIATION : Nat
  PROP_TX_PREEMPHASIS : Nat
  PROP_TX_ACOMP_ENABLE : Nat
  PROP_TX_ACOMP_GAIN : Nat
  PROP_TX_RDS_INTERRUPT_SOURCE : Nat
  PROP_TX_RDS_PI : Nat
  PROP_TX_RDS_PS_MIX : Nat
  PROP_TX_RDS_PS_MISC : Nat
  PROP_TX_RDS_PS_REPEAT_COUNT : Nat
  PROP_TX_RDS_MESSAGE_COUNT : Nat
  PROP_TX_RDS_PS_AF : Nat
  PROP_TX_RDS_FIFO_SIZE : Nat
  deriving DecidableEq

/-- The conversion of an integer to `int8_t`. -/
def toInt8 (x : Int) : Int := (x + 128) % 256 - 128

/-- The driver object together with its environment.  The members are declared in
`Adafruit_Si4713.h`: `currFreq` is a `uint16_t`, `currdBuV`, `currAntCap`, `currNoiseLevel`
and `currASQ` are `uint8_t`, and `currInLevel`, the input level in dBFS, is an `int8_t`. -/
structure Dev where
  /-- The scratch buffer `_i2ccommand` in which every frame is built. -/
  _i2ccommand : List Nat
  /-- The reset pin `_rst` (an `int8_t`). -/
  _rst : Int
  currFreq : Nat
  currdBuV : Nat
  currAntCap : Nat
  currNoiseLevel : Nat
  currASQ : Nat
  /-- The member `currInLevel`, an `int8_t`. -/
  currInLevel : Int
  /-- The bytes the bus will deliver to the reads still to come, in order. -/
  rx : List Nat
  /-- Everything the driver has done to the bus and the pins so far. -/
  trace : List Event
  deriving DecidableEq

/-- The assignment `_i2ccommand[i] = v;` the value is stored into a `uint8_t`. -/
def Dev.store (d : Dev) (i v : Nat) : Dev :=
  { d with _i2ccommand := d._i2ccommand.set i (v % 256) }

/-- The loop `while (!(status & SI4710_STATUS_CTS)) i2c_dev->read(&status, 1);`
of `sendCommand`, over the bytes the bus still has to deliver.  Returns the
remaining bytes and the extended trace. -/
def sendCommand.wait (c : Consts) :
    Nat → List Nat → List Event → Option (List Nat × List Event)
  | status, [], tr => if status &&& c.STATUS_CTS ≠ 0 then some ([], tr) else none
  | status, b :: rx, tr =>
    if status &&& c.STATUS_CTS ≠ 0 then some (b :: rx, tr)
    else sendCommand.wait c b rx (tr ++ [Event.read 1])

/-- The member `Adafruit_Si4713::sendCommand(uint8_t len)`. -/
def sendCommand (c : Consts) (len : Nat) (d : Dev) : Option Dev :=
  let len := len % 256
  -- i2c_dev->write(_i2ccommand, len);
  let tr := d.trace ++ [Event.write (d._i2ccommand.take len)]
  -- uint8_t status = 0; while (...) ...
  match sendCommand.wait c 0 d.rx tr with
  | none => none
  | some (rx, tr) => some { d with rx := rx, trace := tr }

/-- The member `Adafruit_Si4713::setProperty(uint16_t property, uint16_t value)`. -/
def setProperty (c : Consts) (property value : Nat) (d : Dev) : Option Dev :=
  let property := property % 65536
  let value := value % 65536
  let d := d.store 0 c.CMD_SET_PROPERTY
  let d := d.store 1 0
  let d := d.store 2 (property >>> 8)
  let d := d.store 3 (property &&& 0xFF)
  let d := d.store 4 (value >>> 8)
  let d := d.store 5 (value &&& 0xFF)
  sendCommand c 6 d

/-- The call `i2c_dev->read(resp, n)`: the next `n` bytes of the bus. -/
def busRead (n : Nat) (d : Dev) : Option (List Nat × Dev) :=
  if d.rx.length < n then none
  else some (d.rx.take n, { d with rx := d.rx.drop n, trace := d.trace ++ [Event.read n] })

/-- The call `delay(ms)`. -/
def delay (ms : Nat) (d : Dev) : Dev :=
  { d with trace := d.trace ++ [Event.delay ms] }

/-- The member `Adafruit_Si4713::getStatus()`: a one-byte query answered by one byte. -/
def getStatus (c : Consts) (d : Dev) : Option (Nat × Dev) :=
  -- uint8_t resp[1] = {SI4710_CMD_GET_INT_STATUS};
  let resp := [c.CMD_GET_INT_STATUS % 256]
  -- i2c_dev->write_then_read(resp, 1, resp, 1); return resp[0];
  match d.rx with
  | [] => none
  | b :: rx => some (b, { d with rx := rx, trace := d.trace ++ [Event.writeThenRead resp 1] })

/-- The loop `while ((getStatus() & 0x81) != 0x81) { delay(10); }` of `tuneFM`.  Every
turn consumes one byte of the bus, so `d.rx.length + 1` turns of fuel never run out. -/
def tuneFM.poll (c : Consts) : Nat → Dev → Option Dev
  | 0, _ => none
  | fuel + 1, d =>
    match getStatus c d with
    | none => none
    | some (st, d) => if st &&& 0x81 ≠ 0x81 then tuneFM.poll c fuel (delay 10 d) else some d

/-- The member `Adafruit_Si4713::tuneFM(uint16_t freqKHz)`. -/
def tuneFM (c : Consts) (freqKHz : Nat) (d : Dev) : Option Dev := do
  let freqKHz := freqKHz % 65536
  let d := d.store 0 c.CMD_TX_TUNE_FREQ
  let d := d.store 1 0
  let d := d.store 2 (freqKHz >>> 8)
  let d := d.store 3 freqKHz
  let d ← sendCommand c 4 d
  tuneFM.poll c (d.rx.length + 1) d

/-- The member `Adafruit_Si4713::setTXpower(uint8_t pwr, uint8_t antcap)`. -/
def setTXpower (c : Consts) (pwr antcap : Nat) (d : Dev) : Option Dev :=
  let pwr := pwr % 256
  let antcap := antcap % 256
  let d := d.store 0 c.CMD_TX_TUNE_POWER
  let d := d.store 1 0
  let d := d.store 2 0
  let d := d.store 3 pwr
  let d := d.store 4 antcap
  sendCommand c 5 d

/-- The member `Adafruit_Si4713::readASQ()`. -/
def readASQ (c : Consts) (d : Dev) : Option Dev := do
  let d := d.store 0 c.CMD_TX_ASQ_STATUS
  let d := d.store 1 0x1
  let d ← sendCommand c 2 d
  let (resp, d) ← busRead 5 d
  -- currASQ = resp[1]; currInLevel = resp[4];  (uint8_t to int8_t)
  some { d with currASQ := resp.getD 1 0, currInLevel := toInt8 (resp.getD 4 0) }

/-- The member `Adafruit_Si4713::readTuneStatus()`. -/
def readTuneStatus (c : Consts) (d : Dev) : Option Dev := do
  let d := d.store 0 c.CMD_TX_TUNE_STATUS
  let d := d.store 1 0x1
  let d ← sendCommand c 2 d
  let (resp, d) ← busRead 8 d
  some { d with
    currFreq := ((resp.getD 2 0 <<< 8) ||| resp.getD 3 0) % 65536
    currdBuV := resp.getD 5 0
    currAntCap := resp.getD 6 0
    currNoiseLevel := resp.getD 7 0 }

/-- The loop `while (getStatus() != 0x81) delay(10);` of `readTuneMeasure`. -/
def readTuneMeasure.poll (c : Consts) : Nat → Dev → Option Dev
  | 0, _ => none
  | fuel + 1, d =>
    match getStatus c d with
    | none => none
    | some (st, d) => if st ≠ 0x81 then readTuneMeasure.poll c fuel (delay 10 d) else some d

/-- The statement `if (freq % 5 != 0) { freq -= (freq % 5); }` of `readTuneMeasure`, on
the `uint16_t` variable `freq`. -/
def readTuneMeasure.align (freq : Nat) : Nat :=
  if freq % 5 ≠ 0 then (freq - freq % 5) % 65536 else freq

/-- The member `Adafruit_Si4713::readTuneMeasure(uint16_t freq)`. -/
def readTuneMeasure (c : Consts) (freq : Nat) (d : Dev) : Option Dev := do
  let freq := freq % 65536
  let freq := readTuneMeasure.align freq
  let d := d.store 0 c.CMD_TX_TUNE_MEASURE
  let d := d.store 1 0
  let d := d.store 2 (freq >>> 8)
  let d := d.store 3 freq
  let d := d.store 4 0
  let d ← sendCommand c 5 d
  readTuneMeasure.poll c (d.rx.length + 1) d

/-- The member `Adafruit_Si4713::beginRDS(uint16_t programID)`. -/
def beginRDS (c : Consts) (programID : Nat) (d : Dev) : Option Dev := do
  let programID := programID % 65536
  let d ← setProperty c c.PROP_TX_AUDIO_DEVIATION 6625 d
  let d ← setProperty c c.PROP_TX_RDS_DEVIATION 200 d
  let d ← setProperty c c.PROP_TX_RDS_INTERRUPT_SOURCE 0x0001 d
  let d ← setProperty c c.PROP_TX_RDS_PI programID d
  let d ← setProperty c c.PROP_TX_RDS_PS_MIX 0x03 d
  let d ← setProperty c c.PROP_TX_RDS_PS_MISC 0x1008 d
  let d ← setProperty c c.PROP_TX_RDS_PS_REPEAT_COUNT 3 d
  let d ← setProperty c c.PROP_TX_RDS_MESSAGE_COUNT 1 d
  let d ← setProperty c c.PROP_TX_RDS_PS_AF 0xE0E0 d
  let d ← setProperty c c.PROP_TX_RDS_FIFO_SIZE 0 d
  setProperty c c.PROP_TX_COMPONENT_ENABLE 0x0007 d

/-- The call `memset(buf, v, n)`: the first `n` cells of the buffer are set to `v`. -/
def memset (buf : List Nat) (v : Nat) : Nat → List Nat
  | 0 => buf
  | n + 1 => (memset buf v n).set n (v % 256)

/-- The call `memcpy(buf + off, src, n)`: `n` bytes are copied from the front of `src`. -/
def memcpy (buf : List Nat) (off : Nat) (src : List Nat) : Nat → List Nat
  | 0 => buf
  | n + 1 => (memcpy buf off src n).set (off + n) (src.getD n 0)

/-- The call `strlen(s)`: the number of bytes before the first NUL.  A C string is the
list of the bytes from the pointer on, the terminating NUL being understood at the end of
the list; `s + 4` is then `s.drop 4`. -/
def strlen (s : List Nat) : Nat := (s.takeWhile (fun b => b ≠ 0)).length

/-- The body of the `for` loop of `setRDSstation`, for slot `i` with `s` the characters
still to send.  The cast `(int)strlen(s)` is taken as exact, which it is on every platform
for strings shorter than 32768 characters. -/
def setRDSstation.slot (c : Consts) (i : Nat) (s : List Nat) (d : Dev) : Option Dev :=
  -- memset(_i2ccommand, ' ', 6);
  let d := { d with _i2ccommand := memset d._i2ccommand 0x20 6 }
  -- memcpy(_i2ccommand + 2, s, min(4, (int)strlen(s)));
  let d := { d with _i2ccommand := memcpy d._i2ccommand 2 s (min 4 (strlen s)) }
  let d := d.store 6 0
  let d := d.store 0 c.CMD_TX_RDS_PS
  let d := d.store 1 i
  sendCommand c 6 d

/-- The `for (uint8_t i = 0; i < slots; i++)` loop of `setRDSstation`, started at `i`
with `s` the characters still to send (`s += 4` every turn).  One unit of fuel per turn. -/
def setRDSstation.loop (c : Consts) (slots : Nat) : Nat → Nat → List Nat → Dev → Option Dev
  | 0, i, _, d => if i < slots then none else some d
  | fuel + 1, i, s, d =>
    if i < slots then do
      let d ← setRDSstation.slot c i s d
      setRDSstation.loop c slots fuel ((i + 1) % 256) (s.drop 4) d
    else some d

/-- The member `Adafruit_Si4713::setRDSstation(const char *s)`. -/
def setRDSstation (c : Consts) (s : List Nat) (d : Dev) : Option Dev :=
  -- uint8_t len = strlen(s); uint8_t slots = (len + 3) / 4;
  let len := strlen s % 256
  let slots := ((len + 3) / 4) % 256
  setRDSstation.loop c slots slots 0 s d

/-- The body of the `for` loop of `setRDSbuffer`, for slot `i` with `s` the characters
still to send.  The cast `(int)strlen(s)` is taken as exact, as in `setRDSstation.slot`. -/
def setRDSbuffer.slot (c : Consts) (i : Nat) (s : List Nat) (d : Dev) : Option Dev :=
  -- memset(_i2ccommand, ' ', 8);
  let d := { d with _i2ccommand := memset d._i2ccommand 0x20 8 }
  -- memcpy(_i2ccommand + 4, s, min(4, (int)strlen(s)));
  let d := { d with _i2ccommand := memcpy d._i2ccommand 4 s (min 4 (strlen s)) }
  let d := d.store 8 0
  let d := d.store 0 c.CMD_TX_RDS_BUFF
  let d := if i = 0 then d.store 1 0x06 else d.store 1 0x04
  let d := d.store 2 0x20
  let d := d.store 3 i
  sendCommand c 8 d

/-- The `for (uint8_t i = 0; i < slots; i++)` loop of `setRDSbuffer`. -/
def setRDSbuffer.loop (c : Consts) (slots : Nat) : Nat → Nat → List Nat → Dev → Option Dev
  | 0, i, _, d => if i < slots then none else some d
  | fuel + 1, i, s, d =>
    if i < slots then do
      let d ← setRDSbuffer.slot c i s d
      setRDSbuffer.loop c slots fuel ((i + 1) % 256) (s.drop 4) d
    else some d

/-- The member `Adafruit_Si4713::setRDSbuffer(const char *s)`. -/
def setRDSbuffer (c : Consts) (s : List Nat) (d : Dev) : Option Dev :=
  let len := strlen s % 256
  let slots := ((len + 3) / 4) % 256
  setRDSbuffer.loop c slots slots 0 s d

/-- The member `Adafruit_Si4713::reset()`. -/
def reset (d : Dev) : Dev :=
  if d._rst > 0 then
    { d with trace := d.trace ++
        [Event.pinMode d._rst, Event.digitalWrite d._rst true, Event.delay 10,
         Event.digitalWrite d._rst false, Event.delay 10, Event.digitalWrite d._rst true] }
  else d

/-- The member `Adafruit_Si4713::powerUp()`. -/
def powerUp (c : Consts) (d : Dev) : Option Dev := do
  let d := d.store 0 c.CMD_POWER_UP
  let d := d.store 1 0x12
  let d := d.store 2 0x50
  let d ← sendCommand c 3 d
  let d ← setProperty c c.PROP_REFCLK_FREQ 32768 d
  let d ← setProperty c c.PROP_TX_PREEMPHASIS 0 d
  let d ← setProperty c c.PROP_TX_ACOMP_GAIN 10 d
  setProperty c c.PROP_TX_ACOMP_ENABLE 0x0 d

/-- The member `Adafruit_Si4713::getRev()`; returns the part number `resp[1]`. -/
def getRev (c : Consts) (d : Dev) : Option (Nat × Dev) := do
  let d := d.store 0 c.CMD_GET_REV
  let d := d.store 1 0
  let d ← sendCommand c 2 d
  let (resp, d) ← busRead 9 d
  let pn := resp.getD 1 0
  some (pn, d)

/-- The member `Adafruit_Si4713::begin(addr, theWire)`.  Whether the bus opens, the
result of `i2c_dev->begin()`, is the input `busOpens`. -/
def begin (c : Consts) (busOpens : Bool) (d : Dev) : Option (Bool × Dev) := do
  if !busOpens then
    some (false, d)
  else
    let d := reset d
    let d ← powerUp c d
    let (rev, d) ← getRev c d
    if rev ≠ 13 then some (false, d) else some (true, d)

/-- The member `Adafruit_Si4713::setGPIOctrl(uint8_t x)`. -/
def setGPIOctrl (c : Consts) (x : Nat) (d : Dev) : Option Dev :=
  let x := x % 256
  let d := d.store 0 c.CMD_GPO_CTL
  let d := d.store 1 x
  sendCommand c 2 d

/-- The member `Adafruit_Si4713::setGPIO(uint8_t x)`. -/
def setGPIO (c : Consts) (x : Nat) (d : Dev) : Option Dev :=
  let x := x % 256
  let d := d.store 0 c.CMD_GPO_SET
  let d := d.store 1 x
  sendCommand c 2 d

/-- The command frames written to the bus with `i2c_dev->write`, in order. -/
def frames : List Event → List (List Nat)
  | [] => []
  | Event.write bs :: tr => bs :: frames tr
  | _ :: tr => frames tr

/-- A run of status bytes that answers one command: no byte before the last
has the clear-to-send bit, the last one has it. -/
def IsAck (c : Consts) (seg : List Nat) : Prop :=
  ∃ pre b, seg = pre ++ [b] ∧ (∀ x ∈ pre, x &&& c.STATUS_CTS = 0) ∧ b &&& c.STATUS_CTS ≠ 0

/-- A run of interrupt-status bytes that ends the poll of `tuneFM`: the last byte is
the first with both bit 7 and bit 0 set. -/
def IsTuneDone (run : List Nat) : Prop :=
  ∃ pre b, run = pre ++ [b] ∧ (∀ x ∈ pre, x &&& 0x81 ≠ 0x81) ∧ b &&& 0x81 = 0x81

/-- A run of interrupt-status bytes that ends the poll of `readTuneMeasure`: the last
byte is the first equal to `0x81`. -/
def IsMeasureDone (run : List Nat) : Prop :=
  ∃ pre, run = pre ++ [0x81] ∧ ∀ x ∈ pre, x ≠ 0x81

/-- The bus activity of a poll that needs `k` retries: `k` times a status query followed
by a delay, then the final status query. -/
def pollEvents (c : Consts) : Nat → List Event
  | 0 => [Event.writeThenRead [c.CMD_GET_INT_STATUS % 256] 1]
  | k + 1 => Event.writeThenRead [c.CMD_GET_INT_STATUS % 256] 1 :: Event.delay 10 :: pollEvents c k

/-- The 16-bit value carried big-endian in bytes 2 and 3 of a frame. -/
def freqField (frame : List Nat) : Nat :=
  256 * frame.getD 2 0 + frame.getD 3 0

/-- The slot-write frames that `n` turns of the `setRDSstation` loop send, starting at
slot `i` with `s` the characters still to send. -/
def slotWrites (c : Consts) : Nat → Nat → List Nat → List (List Nat)
  | 0, _, _ => []
  | n + 1, i, s =>
    [c.CMD_TX_RDS_PS % 256, i % 256, s.getD 0 0x20, s.getD 1 0x20, s.getD 2 0x20, s.getD 3 0x20]
      :: slotWrites c n (i + 1) (s.drop 4)

/-- The six bytes `setProperty` leaves at the front of the scratch buffer. -/
def propFrame (c : Consts) (p v : Nat) : List Nat :=
  [c.CMD_SET_PROPERTY % 256, 0, ((p % 65536) >>> 8) % 256, ((p % 65536) &&& 0xFF) % 256,
    ((v % 65536) >>> 8) % 256, ((v % 65536) &&& 0xFF) % 256]

/-- A run of `setProperty` calls, one after the other, for the given (property, value)
pairs. -/
def setProperties (c : Consts) : List (Nat × Nat) → Dev → Option Dev
  | [], d => some d
  | pv :: pvs, d => (setProperty c pv.1 pv.2 d).bind (setProperties c pvs)

/-- The (property, value) pair that a set-property frame carries in its bytes 2-3 and
4-5, both big-endian. -/
def propPair (frame : List Nat) : Nat × Nat :=
  (256 * frame.getD 2 0 + frame.getD 3 0, 256 * frame.getD 4 0 + frame.getD 5 0)

/-- The (property, value) pairs of the calls that `beginRDS` makes, in order. -/
def rdsProps (c : Consts) (programID : Nat) : List (Nat × Nat) :=
  [(c.PROP_TX_AUDIO_DEVIATION, 6625), (c.PROP_TX_RDS_DEVIATION, 200),
   (c.PROP_TX_RDS_INTERRUPT_SOURCE, 0x0001), (c.PROP_TX_RDS_PI, programID),
   (c.PROP_TX_RDS_PS_MIX, 0x03), (c.PROP_TX_RDS_PS_MISC, 0x1008),
   (c.PROP_TX_RDS_PS_REPEAT_COUNT, 3), (c.PROP_TX_RDS_MESSAGE_COUNT, 1),
   (c.PROP_TX_RDS_PS_AF, 0xE0E0), (c.PROP_TX_RDS_FIFO_SIZE, 0),
   (c.PROP_TX_COMPONENT_ENABLE, 0x0007)]

/-- The number of interrupt-status queries (`getStatus` calls) in a trace. -/
def statusQueries : List Event → Nat
  | [] => 0
  | Event.writeThenRead _ _ :: tr => statusQueries tr + 1
  | _ :: tr => statusQueries tr

/-- The number of `delay` calls in a trace. -/
def delays : List Event → Nat
  | [] => 0
  | Event.delay _ :: tr => delays tr + 1
  | _ :: tr => delays tr

/-- The constructor `Adafruit_Si4713::Adafruit_Si4713(int8_t resetpin)`.  It only assigns
`_rst`; the other members are whatever the object `d` holds. -/
def Adafruit_Si4713 (resetpin : Int) (d : Dev) : Dev :=
  { d with _rst := toInt8 resetpin }

/-- The buffer-write frames that `n` turns of the `setRDSbuffer` loop send, starting at
slot `i` with `s` the characters still to send. -/
def bufWrites (c : Consts) : Nat → Nat → List Nat → List (List Nat)
  | 0, _, _ => []
  | n + 1, i, s =>
    [c.CMD_TX_RDS_BUFF % 256, if i = 0 then 0x06 else 0x04, 0x20, i % 256, s.getD 0 0x20,
      s.getD 1 0x20, s.getD 2 0x20, s.getD 3 0x20]
      :: bufWrites c n (i + 1) (s.drop 4)

/-- The six cached status fields of the driver. -/
def cached (d : Dev) : Nat × Nat × Nat × Nat × Nat × Int :=
  (d.currFreq, d.currdBuV, d.currAntCap, d.currNoiseLevel, d.currASQ, d.currInLevel)

/-- What C18 asks of a frame handed to `sendCommand`: between 2 and 8 bytes, the first of
them one of the opcodes `ops`. -/
def FrameOK (ops : List Nat) (f : List Nat) : Prop :=
  2 ≤ f.length ∧ f.length ≤ 8 ∧ ∃ op ∈ ops, f.head? = some op

/-- The state `d'` comes from `d` by rewriting the scratch buffer in place, consuming bus
bytes and extending the trace, nothing else; and, when the scratch buffer has at least
nine cells, every frame written on the way satisfies `FrameOK ops`. -/
def Run (ops : List Nat) (d d' : Dev) : Prop :=
  ∃ buf rx tr, buf.length = d._i2ccommand.length ∧
    d' = { d with _i2ccommand := buf, rx := rx, trace := d.trace ++ tr } ∧
    (9 ≤ d._i2ccommand.length → ∀ f ∈ frames tr, FrameOK ops f)

/-- Going from `d` to `d'` the command frames written are all between 2 and 8 bytes long
and start with one of the opcodes `ops`. -/
def Wrote (ops : List Nat) (d d' : Dev) : Prop :=
  ∃ new, frames d'.trace = frames d.trace ++ new ∧ ∀ f ∈ new, FrameOK ops f

/-- The header constants with the values of the Si4713 programming guide, as a
concrete instance. -/
def si4713 : Consts where
  CMD_POWER_UP := 0x01
  CMD_GET_REV := 0x10
  CMD_SET_PROPERTY := 0x12
  CMD_GET_INT_STATUS := 0x14
  CMD_TX_TUNE_FREQ := 0x30
  CMD_TX_TUNE_POWER := 0x31
  CMD_TX_TUNE_MEASURE := 0x32
  CMD_TX_TUNE_STATUS := 0x33
  CMD_TX_ASQ_STATUS := 0x34
  CMD_TX_RDS_BUFF := 0x35
  CMD_TX_RDS_PS := 0x36
  CMD_GPO_CTL := 0x80
  CMD_GPO_SET := 0x81
  STATUS_CTS := 0x80
  PROP_REFCLK_FREQ := 0x0201
  PROP_TX_COMPONENT_ENABLE := 0x2100
  PROP_TX_AUDIO_DEVIATION := 0x2101
  PROP_TX_RDS_DEVIATION := 0x2103
  PROP_TX_PREEMPHASIS := 0x2106
  PROP_TX_ACOMP_ENABLE := 0x2200
  PROP_TX_ACOMP_GAIN := 0x2204
  PROP_TX_RDS_INTERRUPT_SOURCE := 0x2C00
  PROP_TX_RDS_PI := 0x2C01
  PROP_TX_RDS_PS_MIX := 0x2C02
  PROP_TX_RDS_PS_MISC := 0x2C03
  PROP_TX_RDS_PS_REPEAT_COUNT := 0x2C04
  PROP_TX_RDS_MESSAGE_COUNT := 0x2C05
  PROP_TX_RDS_PS_AF := 0x2C06
  PROP_TX_RDS_FIFO_SIZE := 0x2C07

/-- A freshly constructed driver (ten zero bytes of scratch buffer, no reset
pin) facing a bus that will deliver `rx`. -/
def Dev.fresh (rx : List Nat) : Dev where
  _i2ccommand := List.replicate 10 0
  _rst := -1
  currFreq := 0
  currdBuV := 0
  currAntCap := 0
  currNoiseLevel := 0
  currASQ := 0
  currInLevel := 0
  rx := rx
  trace := []

/-! ## Lemmas on the bus model -/

theorem frames_append (a b : List Event) : frames (a ++ b) = frames a ++ frames b := by
  induction a with
  | nil => rfl
  | cons e a ih => cases e <;> simp [frames, ih]

theorem frames_replicate_read (n : Nat) : frames (List.replicate n (Event.read 1)) = [] := by
  induction n with
  | zero => rfl
  | succ n ih => simpa [List.replicate_succ, frames] using ih

theorem wait_ack (c : Consts) (pre : List Nat) (b : Nat) (rest : List Nat)
    (hpre : ∀ x ∈ pre, x &&& c.STATUS_CTS = 0) (hb : b &&& c.STATUS_CTS ≠ 0) :
    ∀ (status : Nat) (tr : List Event), status &&& c.STATUS_CTS = 0 →
      sendCommand.wait c status (pre ++ b :: rest) tr
        = some (rest, tr ++ List.replicate (pre.length + 1) (Event.read 1)) := by
  induction pre with
  | nil =>
    intro status tr hs
    cases rest <;> simp [sendCommand.wait, hs, hb]
  | cons x pre ih =>
    intro status tr hs
    have hx : x &&& c.STATUS_CTS = 0 := hpre x (by simp)
    have ih2 := ih (fun y hy => hpre y (by simp [hy])) x (tr ++ [Event.read 1]) hx
    rw [List.cons_append, sendCommand.wait]
    simp only [hs, ne_eq, not_true_eq_false, if_false]
    rw [ih2]
    simp [List.replicate_succ]

/-- What `sendCommand` does when the bus answers with the run `seg`. -/
theorem sendCommand_ack (c : Consts) (len : Nat) (d : Dev) (seg rest : List Nat)
    (hack : IsAck c seg) (hrx : d.rx = seg ++ rest) :
    sendCommand c len d = some { d with
      rx := rest
      trace := d.trace ++ Event.write (d._i2ccommand.take (len % 256))
        :: List.replicate seg.length (Event.read 1) } := by
  obtain ⟨pre, b, rfl, hpre, hb⟩ := hack
  have h := wait_ack c pre b rest hpre hb 0
    (d.trace ++ [Event.write (d._i2ccommand.take (len % 256))]) (by simp)
  simp only [sendCommand, hrx, List.append_assoc, List.singleton_append] at h ⊢
  rw [h]
  simp

theorem exists_six (l : List Nat) (h : 6 ≤ l.length) :
    ∃ a0 a1 a2 a3 a4 a5 t, l = a0 :: a1 :: a2 :: a3 :: a4 :: a5 :: t := by
  rcases l with _ | ⟨a0, _ | ⟨a1, _ | ⟨a2, _ | ⟨a3, _ | ⟨a4, _ | ⟨a5, t⟩⟩⟩⟩⟩⟩ <;>
    simp at h
  exact ⟨a0, a1, a2, a3, a4, a5, t, rfl⟩

/-- What `setProperty` does when the bus answers with the run `seg`. -/
theorem setProperty_ack (c : Consts) (p v : Nat) (d : Dev) (seg rest : List Nat)
    (hbuf : 6 ≤ d._i2ccommand.length) (hack : IsAck c seg) (hrx : d.rx = seg ++ rest) :
    setProperty c p v d = some { d with
      _i2ccommand := propFrame c p v ++ d._i2ccommand.drop 6
      rx := rest
      trace := d.trace ++ Event.write (propFrame c p v)
        :: List.replicate seg.length (Event.read 1) } := by
  obtain ⟨a0, a1, a2, a3, a4, a5, t, hl⟩ := exists_six _ hbuf
  unfold setProperty
  simp only []
  rw [sendCommand_ack c 6 _ seg rest hack (by simpa [Dev.store] using hrx)]
  simp [Dev.store, hl, propFrame]

theorem byte_hi (p : Nat) (hp : p < 65536) : ((p % 65536) >>> 8) % 256 = p >>> 8 := by
  rw [Nat.mod_eq_of_lt hp, Nat.shiftRight_eq_div_pow]
  omega

theorem byte_lo (p : Nat) (hp : p < 65536) : ((p % 65536) &&& 0xFF) % 256 = p &&& 0xFF := by
  rw [Nat.mod_eq_of_lt hp]
  exact Nat.mod_eq_of_lt (Nat.lt_of_le_of_lt Nat.and_le_right (by decide))

/-- C1: for 16-bit `p` and `v`, on a bus that answers the command, `setProperty p v`
returns and adds to the command frames written to the bus exactly one frame, the six
bytes `[SET_PROPERTY, 0, p >> 8, p & 0xFF, v >> 8, v & 0xFF]`. -/
theorem setProperty_writes_one_frame (c : Consts) (p v : Nat) (d : Dev) (seg rest : List Nat)
    (hop : c.CMD_SET_PROPERTY < 256) (hp : p < 65536) (hv : v < 65536)
    (hbuf : 6 ≤ d._i2ccommand.length) (hack : IsAck c seg) (hrx : d.rx = seg ++ rest) :
    ∃ d', setProperty c p v d = some d' ∧
      frames d'.trace = frames d.trace ++
        [[c.CMD_SET_PROPERTY, 0, p >>> 8, p &&& 0xFF, v >>> 8, v &&& 0xFF]] ∧
      [c.CMD_SET_PROPERTY, 0, p >>> 8, p &&& 0xFF, v >>> 8, v &&& 0xFF].length = 6 := by
  refine ⟨_, setProperty_ack c p v d seg rest hbuf hack hrx, ?_, rfl⟩
  simp [frames_append, frames, frames_replicate_read, propFrame, byte_hi, byte_lo, hp, hv,
    Nat.mod_eq_of_lt hop]

theorem isAck_intro (c : Consts) (pre : List Nat) (b : Nat)
    (hpre : ∀ x ∈ pre, x &&& c.STATUS_CTS = 0) (hb : b &&& c.STATUS_CTS ≠ 0) :
    IsAck c (pre ++ [b]) :=
  ⟨pre, b, rfl, hpre, hb⟩

/-- Instance of C1: property 0x2101 set to 6625, the bus answering busy once, then ready. -/
theorem setProperty_writes_one_frame_witness :
    ∃ d', setProperty si4713 0x2101 6625 (Dev.fresh [0x00, 0x80, 7]) = some d' ∧
      frames d'.trace = frames (Dev.fresh [0x00, 0x80, 7]).trace ++
        [[si4713.CMD_SET_PROPERTY, 0, 0x2101 >>> 8, 0x2101 &&& 0xFF, 6625 >>> 8, 6625 &&& 0xFF]] ∧
      [si4713.CMD_SET_PROPERTY, 0, 0x2101 >>> 8, 0x2101 &&& 0xFF, 6625 >>> 8,
        6625 &&& 0xFF].length = 6 :=
  setProperty_writes_one_frame si4713 0x2101 6625 (Dev.fresh [0x00, 0x80, 7]) [0x00, 0x80] [7]
    (by decide) (by decide) (by decide) (by decide)
    (isAck_intro si4713 [0x00] 0x80 (by decide) (by decide)) rfl

theorem frames_pollEvents (c : Consts) (k : Nat) : frames (pollEvents c k) = [] := by
  induction k with
  | zero => rfl
  | succ k ih => simpa [pollEvents, frames] using ih

theorem tuneFM_poll_done (c : Consts) (b : Nat) (rest : List Nat) (hb : b &&& 0x81 = 0x81) :
    ∀ (pre : List Nat) (d : Dev) (fuel : Nat), (∀ x ∈ pre, x &&& 0x81 ≠ 0x81) →
      d.rx = pre ++ b :: rest → pre.length < fuel →
      tuneFM.poll c fuel d
        = some { d with rx := rest, trace := d.trace ++ pollEvents c pre.length } := by
  intro pre
  induction pre with
  | nil =>
    intro d fuel _ hrx hfuel
    obtain ⟨f, rfl⟩ : ∃ f, fuel = f + 1 := ⟨fuel - 1, by simp at hfuel; omega⟩
    simp at hrx
    simp [tuneFM.poll, getStatus, hrx, hb, pollEvents]
  | cons x pre ih =>
    intro d fuel hpre hrx hfuel
    obtain ⟨f, rfl⟩ : ∃ f, fuel = f + 1 := ⟨fuel - 1, by simp at hfuel; omega⟩
    have hx : x &&& 0x81 ≠ 0x81 := hpre x (by simp)
    simp at hrx
    simp only [tuneFM.poll, getStatus, hrx, hx, ne_eq, not_false_eq_true, if_true]
    rw [ih _ f (fun y hy => hpre y (by simp [hy])) rfl (by simpa using hfuel)]
    simp [delay, pollEvents]

theorem readTuneMeasure_poll_done (c : Consts) (rest : List Nat) :
    ∀ (pre : List Nat) (d : Dev) (fuel : Nat), (∀ x ∈ pre, x ≠ 0x81) →
      d.rx = pre ++ 0x81 :: rest → pre.length < fuel →
      readTuneMeasure.poll c fuel d
        = some { d with rx := rest, trace := d.trace ++ pollEvents c pre.length } := by
  intro pre
  induction pre with
  | nil =>
    intro d fuel _ hrx hfuel
    obtain ⟨f, rfl⟩ : ∃ f, fuel = f + 1 := ⟨fuel - 1, by simp at hfuel; omega⟩
    simp at hrx
    simp [readTuneMeasure.poll, getStatus, hrx, pollEvents]
  | cons x pre ih =>
    intro d fuel hpre hrx hfuel
    obtain ⟨f, rfl⟩ : ∃ f, fuel = f + 1 := ⟨fuel - 1, by simp at hfuel; omega⟩
    have hx : x ≠ 0x81 := hpre x (by simp)
    simp at hrx
    simp only [readTuneMeasure.poll, getStatus, hrx, hx, ne_eq, not_false_eq_true, if_true]
    rw [ih _ f (fun y hy => hpre y (by simp [hy])) rfl (by simpa using hfuel)]
    simp [delay, pollEvents]

theorem exists_four (l : List Nat) (h : 4 ≤ l.length) :
    ∃ a0 a1 a2 a3 t, l = a0 :: a1 :: a2 :: a3 :: t := by
  rcases l with _ | ⟨a0, _ | ⟨a1, _ | ⟨a2, _ | ⟨a3, t⟩⟩⟩⟩ <;> simp at h
  exact ⟨a0, a1, a2, a3, t, rfl⟩

theorem exists_five (l : List Nat) (h : 5 ≤ l.length) :
    ∃ a0 a1 a2 a3 a4 t, l = a0 :: a1 :: a2 :: a3 :: a4 :: t := by
  rcases l with _ | ⟨a0, _ | ⟨a1, _ | ⟨a2, _ | ⟨a3, _ | ⟨a4, t⟩⟩⟩⟩⟩ <;> simp at h
  exact ⟨a0, a1, a2, a3, a4, t, rfl⟩

theorem exists_two (l : List Nat) (h : 2 ≤ l.length) : ∃ a0 a1 t, l = a0 :: a1 :: t := by
  rcases l with _ | ⟨a0, _ | ⟨a1, t⟩⟩ <;> simp at h
  exact ⟨a0, a1, t, rfl⟩

/-- What `tuneFM` does when the bus answers the command with the run `seg` and the poll
with the run `pre ++ [b]`. -/
theorem tuneFM_ack (c : Consts) (F : Nat) (d : Dev) (seg pre : List Nat) (b : Nat)
    (rest : List Nat) (hbuf : 4 ≤ d._i2ccommand.length) (hack : IsAck c seg)
    (hpre : ∀ x ∈ pre, x &&& 0x81 ≠ 0x81) (hb : b &&& 0x81 = 0x81)
    (hrx : d.rx = seg ++ (pre ++ b :: rest)) :
    tuneFM c F d = some { d with
      _i2ccommand := [c.CMD_TX_TUNE_FREQ % 256, 0, ((F % 65536) >>> 8) % 256, F % 65536 % 256]
        ++ d._i2ccommand.drop 4
      rx := rest
      trace := d.trace ++ Event.write
          [c.CMD_TX_TUNE_FREQ % 256, 0, ((F % 65536) >>> 8) % 256, F % 65536 % 256]
        :: (List.replicate seg.length (Event.read 1) ++ pollEvents c pre.length) } := by
  obtain ⟨a0, a1, a2, a3, t, hl⟩ := exists_four _ hbuf
  unfold tuneFM
  simp only [Option.bind_eq_bind]
  rw [sendCommand_ack c 4 _ seg (pre ++ b :: rest) hack (by simpa [Dev.store] using hrx)]
  simp only [Option.some_bind]
  rw [tuneFM_poll_done c b rest hb pre _ _ hpre rfl (by simp; omega)]
  simp [Dev.store, hl]

theorem byte_lo_mod (p : Nat) : p % 256 = p &&& 0xFF :=
  (Nat.and_pow_two_sub_one_eq_mod p 8).symm

theorem be_join (p : Nat) : 256 * (p >>> 8) + (p &&& 0xFF) = p := by
  rw [← byte_lo_mod, Nat.shiftRight_eq_div_pow]
  omega

theorem freqField_cons (a b hi lo : Nat) (t : List Nat) :
    freqField (a :: b :: hi :: lo :: t) = 256 * hi + lo := rfl

theorem isTuneDone_intro (pre : List Nat) (b : Nat)
    (hpre : ∀ x ∈ pre, x &&& 0x81 ≠ 0x81) (hb : b &&& 0x81 = 0x81) : IsTuneDone (pre ++ [b]) :=
  ⟨pre, b, rfl, hpre, hb⟩

theorem isMeasureDone_intro (pre : List Nat) (hpre : ∀ x ∈ pre, x ≠ 0x81) :
    IsMeasureDone (pre ++ [0x81]) :=
  ⟨pre, rfl, hpre⟩

/-- C2: for a 16-bit `F`, on a bus that answers the command and then reports the tune
complete, `tuneFM F` returns and adds to the command frames written to the bus exactly
one frame, the four bytes `[TX_TUNE_FREQ, 0, F >> 8, F & 0xFF]`, whose bytes 2 and 3 are
`F` in big-endian order. -/
theorem tuneFM_writes_one_frame (c : Consts) (F : Nat) (d : Dev) (seg run rest : List Nat)
    (hop : c.CMD_TX_TUNE_FREQ < 256) (hF : F < 65536) (hbuf : 4 ≤ d._i2ccommand.length)
    (hack : IsAck c seg) (hdone : IsTuneDone run) (hrx : d.rx = seg ++ run ++ rest) :
    ∃ d', tuneFM c F d = some d' ∧
      frames d'.trace = frames d.trace ++ [[c.CMD_TX_TUNE_FREQ, 0, F >>> 8, F &&& 0xFF]] ∧
      [c.CMD_TX_TUNE_FREQ, 0, F >>> 8, F &&& 0xFF].length = 4 ∧
      freqField [c.CMD_TX_TUNE_FREQ, 0, F >>> 8, F &&& 0xFF] = F := by
  obtain ⟨pre, b, rfl, hpre, hb⟩ := hdone
  refine ⟨_, tuneFM_ack c F d seg pre b rest hbuf hack hpre hb (by simpa using hrx), ?_, rfl, ?_⟩
  · rw [byte_hi F hF, Nat.mod_eq_of_lt hF, Nat.mod_eq_of_lt hop, byte_lo_mod F]
    simp [frames_append, frames, frames_replicate_read, frames_pollEvents]
  · exact (freqField_cons _ _ _ _ _).trans (be_join F)

/-- Instance of C2: tuning to 8810, the bus answering busy once and the tune completing at the
second poll, with status 0x85. -/
theorem tuneFM_writes_one_frame_witness :
    ∃ d', tuneFM si4713 8810 (Dev.fresh [0x00, 0x80, 0x80, 0x85, 7]) = some d' ∧
      frames d'.trace = frames (Dev.fresh [0x00, 0x80, 0x80, 0x85, 7]).trace ++
        [[si4713.CMD_TX_TUNE_FREQ, 0, 8810 >>> 8, 8810 &&& 0xFF]] ∧
      [si4713.CMD_TX_TUNE_FREQ, 0, 8810 >>> 8, 8810 &&& 0xFF].length = 4 ∧
      freqField [si4713.CMD_TX_TUNE_FREQ, 0, 8810 >>> 8, 8810 &&& 0xFF] = 8810 :=
  tuneFM_writes_one_frame si4713 8810 (Dev.fresh [0x00, 0x80, 0x80, 0x85, 7]) [0x00, 0x80]
    [0x80, 0x85] [7] (by decide) (by decide) (by decide)
    (isAck_intro si4713 [0x00] 0x80 (by decide) (by decide))
    (isTuneDone_intro [0x80] 0x85 (by decide) (by decide)) rfl

theorem busRead_append (n : Nat) (d : Dev) (r rest : List Nat) (hr : r.length = n)
    (hrx : d.rx = r ++ rest) :
    busRead n d = some (r, { d with rx := rest, trace := d.trace ++ [Event.read n] }) := by
  subst hr
  simp [busRead, hrx]

theorem be_decode (hi lo : Nat) (hhi : hi < 256) (hlo : lo < 256) :
    ((hi <<< 8) ||| lo) % 65536 = 256 * hi + lo := by
  have h := Nat.mul_add_lt_is_or (show lo < 2 ^ 8 from hlo) hi
  rw [Nat.shiftLeft_eq, Nat.mul_comm, ← h]
  omega

/-- What `readTuneStatus` does when the bus answers the query with the run `seg` and then
delivers the eight bytes `r`. -/
theorem readTuneStatus_ack (c : Consts) (d : Dev) (seg r rest : List Nat)
    (hbuf : 2 ≤ d._i2ccommand.length) (hack : IsAck c seg) (hr : r.length = 8)
    (hrx : d.rx = seg ++ (r ++ rest)) :
    readTuneStatus c d = some { d with
      _i2ccommand := [c.CMD_TX_TUNE_STATUS % 256, 1] ++ d._i2ccommand.drop 2
      rx := rest
      trace := d.trace ++ Event.write [c.CMD_TX_TUNE_STATUS % 256, 1]
        :: (List.replicate seg.length (Event.read 1) ++ [Event.read 8])
      currFreq := ((r.getD 2 0 <<< 8) ||| r.getD 3 0) % 65536
      currdBuV := r.getD 5 0
      currAntCap := r.getD 6 0
      currNoiseLevel := r.getD 7 0 } := by
  obtain ⟨a0, a1, t, hl⟩ := exists_two _ hbuf
  unfold readTuneStatus
  simp only [Option.bind_eq_bind]
  rw [sendCommand_ack c 2 _ seg (r ++ rest) hack (by simpa [Dev.store] using hrx)]
  simp only [Option.some_bind]
  rw [busRead_append 8 _ r rest hr rfl]
  simp [Dev.store, hl]

/-- C3: when the bus answers the tune-status query and then delivers the eight bytes `r`,
`readTuneStatus` returns, has written the one frame `[TX_TUNE_STATUS, 0x01]`, and leaves
`currFreq = 256 * r[2] + r[3]`, `currdBuV = r[5]`, `currAntCap = r[6]` and
`currNoiseLevel = r[7]`; putting any other values in `r[0]`, `r[1]` and `r[4]` leaves the
four fields the same. -/
theorem readTuneStatus_decodes (c : Consts) (d : Dev) (seg r rest : List Nat)
    (hop : c.CMD_TX_TUNE_STATUS < 256) (hbuf : 2 ≤ d._i2ccommand.length) (hack : IsAck c seg)
    (hr : r.length = 8) (hbytes : ∀ x ∈ r, x < 256) (hrx : d.rx = seg ++ r ++ rest) :
    ∃ d', readTuneStatus c d = some d' ∧
      frames d'.trace = frames d.trace ++ [[c.CMD_TX_TUNE_STATUS, 0x01]] ∧
      d'.currFreq = 256 * r.getD 2 0 + r.getD 3 0 ∧
      d'.currdBuV = r.getD 5 0 ∧ d'.currAntCap = r.getD 6 0 ∧ d'.currNoiseLevel = r.getD 7 0 ∧
      ∀ x0 x1 x4 : Nat, ∃ d'',
        readTuneStatus c { d with rx := seg ++ ((r.set 0 x0).set 1 x1).set 4 x4 ++ rest }
          = some d'' ∧
        d''.currFreq = d'.currFreq ∧ d''.currdBuV = d'.currdBuV ∧
        d''.currAntCap = d'.currAntCap ∧ d''.currNoiseLevel = d'.currNoiseLevel := by
  refine ⟨_, readTuneStatus_ack c d seg r rest hbuf hack hr (by simpa using hrx), ?_, ?_, rfl,
    rfl, rfl, ?_⟩
  · simp [frames_append, frames, frames_replicate_read, Nat.mod_eq_of_lt hop]
  · rcases r with _ | ⟨r0, _ | ⟨r1, _ | ⟨r2, _ | ⟨r3, t⟩⟩⟩⟩ <;> simp at hr
    have h2 : r2 < 256 := hbytes r2 (by simp)
    have h3 : r3 < 256 := hbytes r3 (by simp)
    simpa using be_decode r2 r3 h2 h3
  · intro x0 x1 x4
    refine ⟨_, readTuneStatus_ack c _ seg (((r.set 0 x0).set 1 x1).set 4 x4) rest hbuf hack
      (by simpa using hr) (by simp), ?_⟩
    rcases r with _ | ⟨r0, _ | ⟨r1, _ | ⟨r2, _ | ⟨r3, _ | ⟨r4, t⟩⟩⟩⟩⟩ <;> simp at hr
    simp

/-- Instance of C3: a response carrying frequency 0x226A, level 115, capacitance 4, noise 9. -/
theorem readTuneStatus_decodes_witness :
    ∃ d', readTuneStatus si4713 (Dev.fresh [0x00, 0x80, 0x80, 0, 0x22, 0x6A, 0, 115, 4, 9, 7])
        = some d' ∧
      frames d'.trace
        = frames (Dev.fresh [0x00, 0x80, 0x80, 0, 0x22, 0x6A, 0, 115, 4, 9, 7]).trace ++
          [[si4713.CMD_TX_TUNE_STATUS, 0x01]] ∧
      d'.currFreq = 256 * [0x80, 0, 0x22, 0x6A, 0, 115, 4, 9].getD 2 0
        + [0x80, 0, 0x22, 0x6A, 0, 115, 4, 9].getD 3 0 ∧
      d'.currdBuV = [0x80, 0, 0x22, 0x6A, 0, 115, 4, 9].getD 5 0 ∧
      d'.currAntCap = [0x80, 0, 0x22, 0x6A, 0, 115, 4, 9].getD 6 0 ∧
      d'.currNoiseLevel = [0x80, 0, 0x22, 0x6A, 0, 115, 4, 9].getD 7 0 ∧
      ∀ x0 x1 x4 : Nat, ∃ d'',
        readTuneStatus si4713 { Dev.fresh [0x00, 0x80, 0x80, 0, 0x22, 0x6A, 0, 115, 4, 9, 7] with
            rx := [0x00, 0x80] ++ (([0x80, 0, 0x22, 0x6A, 0, 115, 4, 9].set 0 x0).set 1 x1).set 4 x4
              ++ [7] }
          = some d'' ∧
        d''.currFreq = d'.currFreq ∧ d''.currdBuV = d'.currdBuV ∧
        d''.currAntCap = d'.currAntCap ∧ d''.currNoiseLevel = d'.currNoiseLevel :=
  readTuneStatus_decodes si4713 (Dev.fresh [0x00, 0x80, 0x80, 0, 0x22, 0x6A, 0, 115, 4, 9, 7])
    [0x00, 0x80] [0x80, 0, 0x22, 0x6A, 0, 115, 4, 9] [7] (by decide) (by decide)
    (isAck_intro si4713 [0x00] 0x80 (by decide) (by decide)) rfl (by decide) rfl

/-- What `readTuneMeasure` does when the bus answers the command with the run `seg` and
the poll with the run `pre ++ [0x81]`. -/
theorem readTuneMeasure_ack (c : Consts) (f : Nat) (d : Dev) (seg pre rest : List Nat)
    (hbuf : 5 ≤ d._i2ccommand.length) (hack : IsAck c seg) (hpre : ∀ x ∈ pre, x ≠ 0x81)
    (hrx : d.rx = seg ++ (pre ++ 0x81 :: rest)) :
    readTuneMeasure c f d = some { d with
      _i2ccommand := [c.CMD_TX_TUNE_MEASURE % 256, 0,
          (readTuneMeasure.align (f % 65536) >>> 8) % 256,
          readTuneMeasure.align (f % 65536) % 256, 0] ++ d._i2ccommand.drop 5
      rx := rest
      trace := d.trace ++ Event.write [c.CMD_TX_TUNE_MEASURE % 256, 0,
          (readTuneMeasure.align (f % 65536) >>> 8) % 256,
          readTuneMeasure.align (f % 65536) % 256, 0]
        :: (List.replicate seg.length (Event.read 1) ++ pollEvents c pre.length) } := by
  obtain ⟨a0, a1, a2, a3, a4, t, hl⟩ := exists_five _ hbuf
  unfold readTuneMeasure
  simp only [Option.bind_eq_bind]
  rw [sendCommand_ack c 5 _ seg (pre ++ 0x81 :: rest) hack (by simpa [Dev.store] using hrx)]
  simp only [Option.some_bind]
  rw [readTuneMeasure_poll_done c rest pre _ _ hpre rfl (by simp; omega)]
  simp [Dev.store, hl]

theorem align_eq (f : Nat) (hf : f < 65536) : readTuneMeasure.align f = f - f % 5 := by
  unfold readTuneMeasure.align
  split <;> omega

theorem measure_frame_eq (c : Consts) (f g : Nat) (hop : c.CMD_TX_TUNE_MEASURE < 256)
    (hf : f < 65536) (hg : g = f - f % 5) :
    [c.CMD_TX_TUNE_MEASURE % 256, 0, (readTuneMeasure.align (f % 65536) >>> 8) % 256,
      readTuneMeasure.align (f % 65536) % 256, 0]
      = [c.CMD_TX_TUNE_MEASURE, 0, g >>> 8, g &&& 0xFF, 0] := by
  have hg2 : g < 65536 := by omega
  rw [Nat.mod_eq_of_lt hf, align_eq f hf, ← hg, Nat.mod_eq_of_lt hop, byte_lo_mod g]
  have := byte_hi g hg2
  rw [Nat.mod_eq_of_lt hg2] at this
  rw [this]

/-- C4: for a 16-bit `f`, on a bus that answers the command and then reports `0x81`,
`readTuneMeasure f` returns (no input is rejected) and adds to the command frames written
to the bus the one frame `[TX_TUNE_MEASURE, 0, g >> 8, g & 0xFF, 0]`, where `g` is the
greatest multiple of 5 not above `f`: `g` is a multiple of 5, `g ≤ f < g + 5`, every
multiple of 5 not above `f` is at most `g`, and `g = f` when `f` is a multiple of 5. -/
theorem readTuneMeasure_frames_aligned (c : Consts) (f : Nat) (d : Dev)
    (seg run rest : List Nat) (hop : c.CMD_TX_TUNE_MEASURE < 256) (hf : f < 65536)
    (hbuf : 5 ≤ d._i2ccommand.length) (hack : IsAck c seg) (hdone : IsMeasureDone run)
    (hrx : d.rx = seg ++ run ++ rest) :
    ∃ g, g % 5 = 0 ∧ g ≤ f ∧ f < g + 5 ∧ (∀ m, m % 5 = 0 → m ≤ f → m ≤ g) ∧
      (f % 5 = 0 → g = f) ∧
      ∃ d', readTuneMeasure c f d = some d' ∧
        frames d'.trace
          = frames d.trace ++ [[c.CMD_TX_TUNE_MEASURE, 0, g >>> 8, g &&& 0xFF, 0]] := by
  obtain ⟨pre, rfl, hpre⟩ := hdone
  refine ⟨f - f % 5, by omega, by omega, by omega, fun m h1 h2 => by omega, fun h => by omega,
    _, readTuneMeasure_ack c f d seg pre rest hbuf hack hpre (by simpa using hrx), ?_⟩
  rw [measure_frame_eq c f (f - f % 5) hop hf rfl]
  simp [frames_append, frames, frames_replicate_read, frames_pollEvents]

/-- Instance of C4: the unaligned frequency 8813. -/
theorem readTuneMeasure_frames_aligned_witness :
    ∃ g, g % 5 = 0 ∧ g ≤ 8813 ∧ 8813 < g + 5 ∧ (∀ m, m % 5 = 0 → m ≤ 8813 → m ≤ g) ∧
      (8813 % 5 = 0 → g = 8813) ∧
      ∃ d', readTuneMeasure si4713 8813 (Dev.fresh [0x00, 0x80, 0x80, 0x85, 0x81, 7]) = some d' ∧
        frames d'.trace
          = frames (Dev.fresh [0x00, 0x80, 0x80, 0x85, 0x81, 7]).trace ++
            [[si4713.CMD_TX_TUNE_MEASURE, 0, g >>> 8, g &&& 0xFF, 0]] :=
  readTuneMeasure_frames_aligned si4713 8813 (Dev.fresh [0x00, 0x80, 0x80, 0x85, 0x81, 7])
    [0x00, 0x80] [0x80, 0x85, 0x81] [7] (by decide) (by decide) (by decide)
    (isAck_intro si4713 [0x00] 0x80 (by decide) (by decide))
    (isMeasureDone_intro [0x80, 0x85] (by decide)) rfl

/-- C5, as stated, fails: called with 88105, `readTuneMeasure` writes a frame whose
frequency field is 22565, not 88100. -/
theorem readTuneMeasure_88105_not_88100 :
    (readTuneMeasure si4713 88105 (Dev.fresh [0x80, 0x81])).map
        (fun d => (frames d.trace).map freqField) = some [22565] ∧
      (readTuneMeasure si4713 88105 (Dev.fresh [0x80, 0x81])).map
        (fun d => (frames d.trace).map freqField) ≠ some [88100] := by
  decide

/-- C5, amended: the frequency parameter is 16 bits wide, so the argument 88105 is taken
as `88105 mod 65536 = 22569` and the frequency field of the frame written encodes 22565,
the multiple of 5 below it; for the 16-bit input 8813 the field encodes 8810. -/
theorem readTuneMeasure_example (c : Consts) (d : Dev) (seg run rest : List Nat)
    (hop : c.CMD_TX_TUNE_MEASURE < 256) (hbuf : 5 ≤ d._i2ccommand.length)
    (hack : IsAck c seg) (hdone : IsMeasureDone run) (hrx : d.rx = seg ++ run ++ rest) :
    (∃ d', readTuneMeasure c 88105 d = some d' ∧
      ∃ frame, frames d'.trace = frames d.trace ++ [frame] ∧ freqField frame = 22565) ∧
    (∃ d', readTuneMeasure c 8813 d = some d' ∧
      ∃ frame, frames d'.trace = frames d.trace ++ [frame] ∧ freqField frame = 8810) := by
  obtain ⟨pre, rfl, hpre⟩ := hdone
  refine ⟨⟨_, readTuneMeasure_ack c 88105 d seg pre rest hbuf hack hpre (by simpa using hrx),
      [c.CMD_TX_TUNE_MEASURE, 0, 22565 >>> 8, 22565 &&& 0xFF, 0], ?_,
      (freqField_cons _ _ _ _ _).trans (be_join 22565)⟩,
    ⟨_, readTuneMeasure_ack c 8813 d seg pre rest hbuf hack hpre (by simpa using hrx),
      [c.CMD_TX_TUNE_MEASURE, 0, 8810 >>> 8, 8810 &&& 0xFF, 0], ?_,
      (freqField_cons _ _ _ _ _).trans (be_join 8810)⟩⟩
  · have h : readTuneMeasure.align (88105 % 65536) = readTuneMeasure.align (22569 % 65536) := by
      norm_num
    rw [h, measure_frame_eq c 22569 22565 hop (by norm_num) (by norm_num)]
    simp [frames_append, frames, frames_replicate_read, frames_pollEvents]
  · rw [measure_frame_eq c 8813 8810 hop (by norm_num) (by norm_num)]
    simp [frames_append, frames, frames_replicate_read, frames_pollEvents]

/-- Instance of the amended C5 on a fresh driver. -/
theorem readTuneMeasure_example_witness :
    (∃ d', readTuneMeasure si4713 88105 (Dev.fresh [0x80, 0x00, 0x81]) = some d' ∧
      ∃ frame, frames d'.trace = frames (Dev.fresh [0x80, 0x00, 0x81]).trace ++ [frame] ∧
        freqField frame = 22565) ∧
    (∃ d', readTuneMeasure si4713 8813 (Dev.fresh [0x80, 0x00, 0x81]) = some d' ∧
      ∃ frame, frames d'.trace = frames (Dev.fresh [0x80, 0x00, 0x81]).trace ++ [frame] ∧
        freqField frame = 8810) :=
  readTuneMeasure_example si4713 (Dev.fresh [0x80, 0x00, 0x81]) [0x80] [0x00, 0x81] []
    (by decide) (by decide) (isAck_intro si4713 [] 0x80 (by decide) (by decide))
    (isMeasureDone_intro [0x00] (by decide)) rfl

/-! ## The RDS station string -/

theorem length_memset (buf : List Nat) (v n : Nat) : (memset buf v n).length = buf.length := by
  induction n with
  | zero => rfl
  | succ n ih => simp [memset, ih]

theorem length_memcpy (buf : List Nat) (off : Nat) (src : List Nat) (n : Nat) :
    (memcpy buf off src n).length = buf.length := by
  induction n with
  | zero => rfl
  | succ n ih => simp [memcpy, ih]

theorem exists_seven (l : List Nat) (h : 7 ≤ l.length) :
    ∃ a0 a1 a2 a3 a4 a5 a6 t, l = a0 :: a1 :: a2 :: a3 :: a4 :: a5 :: a6 :: t := by
  rcases l with _ | ⟨a0, _ | ⟨a1, _ | ⟨a2, _ | ⟨a3, _ | ⟨a4, _ | ⟨a5, _ | ⟨a6, t⟩⟩⟩⟩⟩⟩⟩ <;>
    simp at h
  exact ⟨a0, a1, a2, a3, a4, a5, a6, t, rfl⟩

theorem strlen_eq_length (s : List Nat) (hs : ∀ x ∈ s, x ≠ 0) : strlen s = s.length := by
  unfold strlen
  induction s with
  | nil => rfl
  | cons x s ih =>
    have hx : x ≠ 0 := hs x (by simp)
    simp only [List.takeWhile, hx, ne_eq, not_false_eq_true, decide_True, List.length_cons]
    rw [ih (fun y hy => hs y (by simp [hy]))]

theorem nonzero_drop (s : List Nat) (n : Nat) (hs : ∀ x ∈ s, x ≠ 0) :
    ∀ x ∈ s.drop n, x ≠ 0 :=
  fun x hx => hs x (List.mem_of_mem_drop hx)

/-- The six bytes that one turn of the `setRDSstation` loop hands to `sendCommand`. -/
theorem station_frame (buf s : List Nat) (op i : Nat) (hbuf : 7 ≤ buf.length)
    (hs : ∀ x ∈ s, x ≠ 0) :
    ((((memcpy (memset buf 0x20 6) 2 s (min 4 (strlen s))).set 6 (0 % 256)).set 0
        (op % 256)).set 1 (i % 256)).take (6 % 256)
      = [op % 256, i % 256, s.getD 0 0x20, s.getD 1 0x20, s.getD 2 0x20, s.getD 3 0x20] := by
  obtain ⟨a0, a1, a2, a3, a4, a5, a6, t, rfl⟩ := exists_seven _ hbuf
  rw [strlen_eq_length s hs]
  rcases s with _ | ⟨x0, _ | ⟨x1, _ | ⟨x2, _ | ⟨x3, u⟩⟩⟩⟩ <;> simp [memset, memcpy]

/-- What one turn of the `setRDSstation` loop does when the bus answers with `seg`. -/
theorem station_slot_ack (c : Consts) (i : Nat) (s : List Nat) (d : Dev) (seg rest : List Nat)
    (hs : ∀ x ∈ s, x ≠ 0) (hbuf : 7 ≤ d._i2ccommand.length) (hack : IsAck c seg)
    (hrx : d.rx = seg ++ rest) :
    ∃ buf, buf.length = d._i2ccommand.length ∧
      setRDSstation.slot c i s d = some { d with
        _i2ccommand := buf
        rx := rest
        trace := d.trace ++ Event.write
            [c.CMD_TX_RDS_PS % 256, i % 256, s.getD 0 0x20, s.getD 1 0x20, s.getD 2 0x20,
              s.getD 3 0x20]
          :: List.replicate seg.length (Event.read 1) } := by
  refine ⟨(((memcpy (memset d._i2ccommand 0x20 6) 2 s (min 4 (strlen s))).set 6 (0 % 256)).set 0
    (c.CMD_TX_RDS_PS % 256)).set 1 (i % 256), by simp [length_memset, length_memcpy], ?_⟩
  unfold setRDSstation.slot
  simp only []
  rw [sendCommand_ack c 6 _ seg rest hack (by simpa [Dev.store] using hrx)]
  simp only [Dev.store]
  rw [station_frame _ s _ i hbuf hs]

theorem station_loop_ack (c : Consts) (slots : Nat) (hslots : slots < 256) :
    ∀ (n i : Nat) (s : List Nat) (d : Dev) (segs : List (List Nat)) (rest : List Nat),
      (∀ x ∈ s, x ≠ 0) → i + n = slots → segs.length = n → (∀ seg ∈ segs, IsAck c seg) →
      7 ≤ d._i2ccommand.length → d.rx = segs.flatten ++ rest →
      ∃ d', setRDSstation.loop c slots n i s d = some d' ∧
        frames d'.trace = frames d.trace ++ slotWrites c n i s ∧ d'.rx = rest ∧
        d'._i2ccommand.length = d._i2ccommand.length := by
  intro n
  induction n with
  | zero =>
    intro i s d segs rest _ hi hlen _ _ hrx
    have hsegs : segs = [] := List.length_eq_zero.mp hlen
    subst hsegs
    refine ⟨d, ?_, by simp [slotWrites], by simpa using hrx, rfl⟩
    have : ¬ i < slots := by omega
    simp [setRDSstation.loop, this]
  | succ n ih =>
    intro i s d segs rest hs hi hlen hack hbuf hrx
    obtain ⟨seg, segs, rfl⟩ : ∃ seg tl, segs = seg :: tl := by
      cases segs with
      | nil => simp at hlen
      | cons a tl => exact ⟨a, tl, rfl⟩
    have hlt : i < slots := by omega
    have hi1 : (i + 1) % 256 = i + 1 := Nat.mod_eq_of_lt (by omega)
    obtain ⟨buf, hbl, hslot⟩ := station_slot_ack c i s d seg (segs.flatten ++ rest) hs hbuf
      (hack seg (by simp)) (by simpa using hrx)
    obtain ⟨d', h1, h2, h3, h4⟩ := ih (i + 1) (s.drop 4)
      { d with
        _i2ccommand := buf
        rx := segs.flatten ++ rest
        trace := d.trace ++ Event.write
            [c.CMD_TX_RDS_PS % 256, i % 256, s.getD 0 0x20, s.getD 1 0x20, s.getD 2 0x20,
              s.getD 3 0x20]
          :: List.replicate seg.length (Event.read 1) }
      segs rest (nonzero_drop s 4 hs) (by omega)
      (by simpa using hlen) (fun x hx => hack x (by simp [hx]))
      (show 7 ≤ buf.length by omega) rfl
    refine ⟨d', ?_, ?_, h3, by simpa [hbl] using h4⟩
    · simp only [setRDSstation.loop, hlt, if_true, Option.bind_eq_bind, hslot, Option.some_bind,
        hi1]
      exact h1
    · rw [h2]
      simp [frames_append, frames, frames_replicate_read, slotWrites]

theorem getD_drop_four (s : List Nat) (j v : Nat) : (s.drop 4).getD j v = s.getD (4 + j) v := by
  simp [List.getD_eq_getElem?_getD, List.getElem?_drop]

theorem slotWrites_eq_map (c : Consts) (hop : c.CMD_TX_RDS_PS < 256) :
    ∀ (n i : Nat) (s : List Nat), i + n ≤ 256 →
      slotWrites c n i s = (List.range n).map (fun k =>
        [c.CMD_TX_RDS_PS, i + k, s.getD (4 * k) 0x20, s.getD (4 * k + 1) 0x20,
          s.getD (4 * k + 2) 0x20, s.getD (4 * k + 3) 0x20]) := by
  intro n
  induction n with
  | zero => intro i s _; rfl
  | succ n ih =>
    intro i s hi
    rw [slotWrites, ih (i + 1) (s.drop 4) (by omega), List.range_succ_eq_map, List.map_cons,
      List.map_map]
    have hi' : i % 256 = i := Nat.mod_eq_of_lt (by omega)
    congr 1
    · simp [Nat.mod_eq_of_lt hop, hi']
    · apply List.map_congr_left
      intro k _
      simp only [Function.comp, getD_drop_four, Nat.succ_eq_add_one]
      have e0 : 4 + 4 * k = 4 * (k + 1) := by omega
      have e1 : 4 + (4 * k + 1) = 4 * (k + 1) + 1 := by omega
      have e2 : 4 + (4 * k + 2) = 4 * (k + 1) + 2 := by omega
      have e3 : 4 + (4 * k + 3) = 4 * (k + 1) + 3 := by omega
      have e4 : i + 1 + k = i + (k + 1) := by omega
      rw [e0, e1, e2, e3, e4]

theorem slot_content_flatten :
    ∀ (n : Nat) (s : List Nat), s.length ≤ 4 * n →
      ((List.range n).map (fun k =>
        [s.getD (4 * k) 0x20, s.getD (4 * k + 1) 0x20, s.getD (4 * k + 2) 0x20,
          s.getD (4 * k + 3) 0x20])).flatten
        = s ++ List.replicate (4 * n - s.length) 0x20 := by
  intro n
  induction n with
  | zero =>
    intro s hs
    have : s = [] := List.length_eq_zero.mp (by omega)
    simp [this]
  | succ n ih =>
    intro s hs
    have hd : (s.drop 4).length ≤ 4 * n := by simp; omega
    have key := ih (s.drop 4) hd
    rw [List.range_succ_eq_map, List.map_cons, List.map_map, List.flatten_cons]
    have hfun : ((fun k => [s.getD (4 * k) 0x20, s.getD (4 * k + 1) 0x20,
        s.getD (4 * k + 2) 0x20, s.getD (4 * k + 3) 0x20]) ∘ Nat.succ)
        = (fun k => [(s.drop 4).getD (4 * k) 0x20, (s.drop 4).getD (4 * k + 1) 0x20,
            (s.drop 4).getD (4 * k + 2) 0x20, (s.drop 4).getD (4 * k + 3) 0x20]) := by
      funext k
      simp only [Function.comp, getD_drop_four, Nat.succ_eq_add_one]
      have e0 : 4 * (k + 1) = 4 + 4 * k := by omega
      have e1 : 4 * (k + 1) + 1 = 4 + (4 * k + 1) := by omega
      have e2 : 4 * (k + 1) + 2 = 4 + (4 * k + 2) := by omega
      have e3 : 4 * (k + 1) + 3 = 4 + (4 * k + 3) := by omega
      rw [e1, e2, e3, e0]
    rw [hfun, key]
    rcases s with _ | ⟨x0, _ | ⟨x1, _ | ⟨x2, _ | ⟨x3, u⟩⟩⟩⟩
    · have : 4 * (n + 1) - 0 = 4 * n + 1 + 1 + 1 + 1 := by omega
      simp [this, List.replicate_succ]
    · have : 4 * (n + 1) - 1 = 4 * n + 1 + 1 + 1 := by omega
      simp [this, List.replicate_succ]
    · have : 4 * (n + 1) - 2 = 4 * n + 1 + 1 := by omega
      simp [this, List.replicate_succ]
    · have : 4 * (n + 1) - 3 = 4 * n + 1 := by omega
      simp [this, List.replicate_succ]
    · have : 4 * (n + 1) - (u.length + 4) = 4 * n - u.length := by omega
      simp [this]

theorem length_slotWrites (c : Consts) :
    ∀ (n i : Nat) (s : List Nat), (slotWrites c n i s).length = n := by
  intro n
  induction n with
  | zero => intro i s; rfl
  | succ n ih => intro i s; simp [slotWrites, ih]

theorem head_slotWrites (c : Consts) :
    ∀ (n i : Nat) (s : List Nat), ∀ f ∈ slotWrites c n i s,
      f.length = 6 ∧ f.head? = some (c.CMD_TX_RDS_PS % 256) := by
  intro n
  induction n with
  | zero => intro i s f hf; simp [slotWrites] at hf
  | succ n ih =>
    intro i s f hf
    simp only [slotWrites, List.mem_cons] at hf
    rcases hf with rfl | hf
    · simp
    · exact ih _ _ f hf

/-- C6, as stated, fails: for a string of 256 characters, on a bus ready to acknowledge
64 commands, `setRDSstation` returns having written no slot at all, not `ceil(256/4) = 64`. -/
theorem setRDSstation_256_writes_nothing :
    (setRDSstation si4713 (List.replicate 256 0x41) (Dev.fresh (List.replicate 64 0x80))).map
        (fun d => (frames d.trace).length) = some 0 ∧
      (setRDSstation si4713 (List.replicate 256 0x41) (Dev.fresh (List.replicate 64 0x80))).map
        (fun d => (frames d.trace).length) ≠ some ((256 + 3) / 4) := by
  have h : setRDSstation si4713 (List.replicate 256 0x41) (Dev.fresh (List.replicate 64 0x80))
      = some (Dev.fresh (List.replicate 64 0x80)) := by
    unfold setRDSstation
    rw [strlen_eq_length _ (fun x hx => by rw [List.eq_of_mem_replicate hx]; decide),
      List.length_replicate]
    rfl
  rw [h]
  exact ⟨rfl, by decide⟩

/-- C6, amended: the length is held in a `uint8_t`, so for a string `s` (its characters,
none of them NUL) of length `L` (below 32768, where the cast of the length to `int` is
exact) `setRDSstation` issues exactly
`ceil((L mod 256) / 4)` slot-write commands, each of six bytes starting with the
TX_RDS_PS opcode; that is `ceil(L / 4)` when `L ≤ 255`, and none when `L = 0`. -/
theorem setRDSstation_slot_count (c : Consts) (s : List Nat) (d : Dev)
    (segs : List (List Nat)) (rest : List Nat) (hs : ∀ x ∈ s, x ≠ 0) (_hint : s.length < 32768)
    (hbuf : 7 ≤ d._i2ccommand.length) (hsegs : segs.length = (s.length % 256 + 3) / 4)
    (hack : ∀ seg ∈ segs, IsAck c seg) (hrx : d.rx = segs.flatten ++ rest) :
    ∃ d' new, setRDSstation c s d = some d' ∧ frames d'.trace = frames d.trace ++ new ∧
      new.length = (s.length % 256 + 3) / 4 ∧
      (∀ f ∈ new, f.length = 6 ∧ f.head? = some (c.CMD_TX_RDS_PS % 256)) ∧
      (s.length ≤ 255 → new.length = (s.length + 3) / 4) ∧
      (s.length = 0 → new = []) := by
  have hslots : ((s.length % 256 + 3) / 4) % 256 = (s.length % 256 + 3) / 4 :=
    Nat.mod_eq_of_lt (by omega)
  obtain ⟨d', h1, h2, _, _⟩ := station_loop_ack c ((s.length % 256 + 3) / 4) (by omega)
    ((s.length % 256 + 3) / 4) 0 s d segs rest hs (by omega) hsegs hack hbuf hrx
  refine ⟨d', slotWrites c ((s.length % 256 + 3) / 4) 0 s, ?_, h2, length_slotWrites c _ _ _,
    head_slotWrites c _ _ _, ?_, ?_⟩
  · simp only [setRDSstation, strlen_eq_length s hs, hslots]
    exact h1
  · intro hL
    rw [length_slotWrites, Nat.mod_eq_of_lt (by omega)]
  · intro hL
    simp [hL, slotWrites]

theorem isAck_cts (c : Consts) (b : Nat) (hb : b &&& c.STATUS_CTS ≠ 0) : IsAck c [b] :=
  isAck_intro c [] b (by simp) hb

/-- Instance of the amended C6: a string of 257 characters is sent as a single slot. -/
theorem setRDSstation_slot_count_witness :
    ∃ d' new, setRDSstation si4713 (List.replicate 257 0x41) (Dev.fresh [0x80, 7]) = some d' ∧
      frames d'.trace = frames (Dev.fresh [0x80, 7]).trace ++ new ∧
      new.length = ((List.replicate 257 0x41).length % 256 + 3) / 4 ∧
      (∀ f ∈ new, f.length = 6 ∧ f.head? = some (si4713.CMD_TX_RDS_PS % 256)) ∧
      ((List.replicate 257 0x41).length ≤ 255 →
        new.length = ((List.replicate 257 0x41).length + 3) / 4) ∧
      ((List.replicate 257 0x41).length = 0 → new = []) :=
  setRDSstation_slot_count si4713 (List.replicate 257 0x41) (Dev.fresh [0x80, 7]) [[0x80]] [7]
    (fun x hx => by rw [List.eq_of_mem_replicate hx]; decide)
    (by rw [List.length_replicate]; norm_num) (by decide)
    (by rw [List.length_replicate]; rfl)
    (fun seg hseg => by
      rw [List.mem_singleton.mp hseg]
      exact isAck_cts si4713 0x80 (by decide))
    rfl

/-- C7: for a string `s` (its characters, none of them NUL) of length `L ≤ 255`, on a bus
that acknowledges each of the `ceil(L/4)` commands, `setRDSstation s` returns and the
frames it writes are, for `i = 0, 1, ...`, the six bytes `[TX_RDS_PS, i, b0, b1, b2, b3]`
with `bj = s[4i+j]` when `4i+j < L` and `0x20` otherwise (that is `s.getD (4i+j) 0x20`);
the content bytes of all slots in order are `s` followed by `4*ceil(L/4) - L` spaces; and
the frames are the same whatever the scratch buffer held before the call. -/
theorem setRDSstation_slot_frames (c : Consts) (s : List Nat) (d : Dev)
    (segs : List (List Nat)) (rest : List Nat) (hop : c.CMD_TX_RDS_PS < 256)
    (hs : ∀ x ∈ s, x ≠ 0) (hL : s.length ≤ 255) (hbuf : 7 ≤ d._i2ccommand.length)
    (hsegs : segs.length = (s.length + 3) / 4) (hack : ∀ seg ∈ segs, IsAck c seg)
    (hrx : d.rx = segs.flatten ++ rest) :
    ∃ d', setRDSstation c s d = some d' ∧
      frames d'.trace = frames d.trace ++ (List.range ((s.length + 3) / 4)).map (fun i =>
        [c.CMD_TX_RDS_PS, i, s.getD (4 * i) 0x20, s.getD (4 * i + 1) 0x20,
          s.getD (4 * i + 2) 0x20, s.getD (4 * i + 3) 0x20]) ∧
      ((List.range ((s.length + 3) / 4)).map (fun i =>
        [s.getD (4 * i) 0x20, s.getD (4 * i + 1) 0x20, s.getD (4 * i + 2) 0x20,
          s.getD (4 * i + 3) 0x20])).flatten
        = s ++ List.replicate (4 * ((s.length + 3) / 4) - s.length) 0x20 ∧
      ∀ buf : List Nat, 7 ≤ buf.length →
        ∃ d'', setRDSstation c s { d with _i2ccommand := buf } = some d'' ∧
          frames d''.trace = frames d'.trace := by
  have hlen : s.length % 256 = s.length := Nat.mod_eq_of_lt (by omega)
  have hslots : ((s.length + 3) / 4) % 256 = (s.length + 3) / 4 := Nat.mod_eq_of_lt (by omega)
  have hmap := slotWrites_eq_map c hop ((s.length + 3) / 4) 0 s (by omega)
  simp only [Nat.zero_add] at hmap
  obtain ⟨d', h1, h2, _, _⟩ := station_loop_ack c ((s.length + 3) / 4) (by omega)
    ((s.length + 3) / 4) 0 s d segs rest hs (by omega) hsegs hack hbuf hrx
  refine ⟨d', ?_, ?_, slot_content_flatten _ s (by omega), ?_⟩
  · simp only [setRDSstation, strlen_eq_length s hs, hlen, hslots]
    exact h1
  · rw [h2, hmap]
  · intro buf hb
    obtain ⟨d'', g1, g2, _, _⟩ := station_loop_ack c ((s.length + 3) / 4) (by omega)
      ((s.length + 3) / 4) 0 s { d with _i2ccommand := buf } segs rest hs (by omega) hsegs
      hack hb hrx
    refine ⟨d'', ?_, ?_⟩
    · simp only [setRDSstation, strlen_eq_length s hs, hlen, hslots]
      exact g1
    · rw [g2, h2]

/-- Instance of C7: the five characters of "AdaRa" go out as two slots. -/
theorem setRDSstation_slot_frames_witness :
    ∃ d', setRDSstation si4713 [0x41, 0x64, 0x61, 0x52, 0x61] (Dev.fresh [0x80, 0x00, 0x80, 7])
        = some d' ∧
      frames d'.trace = frames (Dev.fresh [0x80, 0x00, 0x80, 7]).trace ++
        (List.range (([0x41, 0x64, 0x61, 0x52, 0x61].length + 3) / 4)).map (fun i =>
          [si4713.CMD_TX_RDS_PS, i, [0x41, 0x64, 0x61, 0x52, 0x61].getD (4 * i) 0x20,
            [0x41, 0x64, 0x61, 0x52, 0x61].getD (4 * i + 1) 0x20,
            [0x41, 0x64, 0x61, 0x52, 0x61].getD (4 * i + 2) 0x20,
            [0x41, 0x64, 0x61, 0x52, 0x61].getD (4 * i + 3) 0x20]) ∧
      ((List.range (([0x41, 0x64, 0x61, 0x52, 0x61].length + 3) / 4)).map (fun i =>
        [[0x41, 0x64, 0x61, 0x52, 0x61].getD (4 * i) 0x20,
          [0x41, 0x64, 0x61, 0x52, 0x61].getD (4 * i + 1) 0x20,
          [0x41, 0x64, 0x61, 0x52, 0x61].getD (4 * i + 2) 0x20,
          [0x41, 0x64, 0x61, 0x52, 0x61].getD (4 * i + 3) 0x20])).flatten
        = [0x41, 0x64, 0x61, 0x52, 0x61] ++
          List.replicate (4 * (([0x41, 0x64, 0x61, 0x52, 0x61].length + 3) / 4)
            - [0x41, 0x64, 0x61, 0x52, 0x61].length) 0x20 ∧
      ∀ buf : List Nat, 7 ≤ buf.length →
        ∃ d'', setRDSstation si4713 [0x41, 0x64, 0x61, 0x52, 0x61]
            { Dev.fresh [0x80, 0x00, 0x80, 7] with _i2ccommand := buf } = some d'' ∧
          frames d''.trace = frames d'.trace :=
  setRDSstation_slot_frames si4713 [0x41, 0x64, 0x61, 0x52, 0x61]
    (Dev.fresh [0x80, 0x00, 0x80, 7]) [[0x80], [0x00, 0x80]] [7] (by decide) (by decide)
    (by decide) (by decide) (by decide)
    (fun seg hseg => by
      rcases List.mem_cons.mp hseg with h | h
      · rw [h]
        exact isAck_cts si4713 0x80 (by decide)
      · rw [List.mem_singleton.mp h]
        exact isAck_intro si4713 [0x00] 0x80 (by decide) (by decide))
    rfl

/-! ## Sequences of property writes -/

theorem setProperties_ack (c : Consts) :
    ∀ (pvs : List (Nat × Nat)) (d : Dev) (segs : List (List Nat)) (rest : List Nat),
      segs.length = pvs.length → (∀ seg ∈ segs, IsAck c seg) →
      6 ≤ d._i2ccommand.length → d.rx = segs.flatten ++ rest →
      ∃ d', setProperties c pvs d = some d' ∧
        frames d'.trace = frames d.trace ++ pvs.map (fun pv => propFrame c pv.1 pv.2) ∧
        d'.rx = rest ∧ d'._i2ccommand.length = d._i2ccommand.length := by
  intro pvs
  induction pvs with
  | nil =>
    intro d segs rest hlen _ _ hrx
    have hsegs : segs = [] := List.length_eq_zero.mp hlen
    subst hsegs
    exact ⟨d, rfl, by simp, by simpa using hrx, rfl⟩
  | cons pv pvs ih =>
    intro d segs rest hlen hack hbuf hrx
    obtain ⟨seg, segs, rfl⟩ : ∃ seg tl, segs = seg :: tl := by
      cases segs with
      | nil => simp at hlen
      | cons a tl => exact ⟨a, tl, rfl⟩
    have hset := setProperty_ack c pv.1 pv.2 d seg (segs.flatten ++ rest) hbuf
      (hack seg (by simp)) (by simpa using hrx)
    obtain ⟨d', h1, h2, h3, h4⟩ := ih
      { d with
        _i2ccommand := propFrame c pv.1 pv.2 ++ d._i2ccommand.drop 6
        rx := segs.flatten ++ rest
        trace := d.trace ++ Event.write (propFrame c pv.1 pv.2)
          :: List.replicate seg.length (Event.read 1) }
      segs rest (by simpa using hlen) (fun x hx => hack x (by simp [hx]))
      (by simp [propFrame]) rfl
    refine ⟨d', ?_, ?_, h3, ?_⟩
    · simp only [setProperties, hset, Option.some_bind]
      exact h1
    · rw [h2]
      simp [frames_append, frames, frames_replicate_read]
    · rw [h4]
      simp [propFrame]
      omega

theorem beginRDS_eq (c : Consts) (programID : Nat) (d : Dev) :
    beginRDS c programID d = setProperties c (rdsProps c (programID % 65536)) d := by
  simp only [beginRDS, rdsProps, setProperties, Option.bind_eq_bind, Option.bind_some]

theorem propPair_propFrame (c : Consts) (p v : Nat) (hp : p < 65536) (hv : v < 65536) :
    propPair (propFrame c p v) = (p, v) := by
  simp only [propFrame, byte_hi p hp, byte_lo p hp, byte_hi v hv, byte_lo v hv]
  show (256 * (p >>> 8) + (p &&& 0xFF), 256 * (v >>> 8) + (v &&& 0xFF)) = (p, v)
  rw [be_join, be_join]

theorem all_cts_ack (c : Consts) (n : Nat) (b : Nat) (hb : b &&& c.STATUS_CTS ≠ 0) :
    ∀ seg ∈ List.replicate n [b], IsAck c seg := by
  intro seg hseg
  rw [(List.mem_replicate.mp hseg).2]
  exact isAck_cts c b hb

/-- C9, as stated, fails: on a bus that acknowledges every command at once, `beginRDS`
writes eleven set-property frames, not nine. -/
theorem beginRDS_writes_eleven_not_nine :
    (beginRDS si4713 0xADAF (Dev.fresh (List.replicate 11 0x80))).map
        (fun d => (frames d.trace).length) = some 11 ∧
      (beginRDS si4713 0xADAF (Dev.fresh (List.replicate 11 0x80))).map
        (fun d => (frames d.trace).length) ≠ some 9 := by
  decide

/-- C9, amended: for every program id, on a bus that acknowledges each command,
`beginRDS` returns and issues exactly eleven property-set commands, each a 6-byte frame
that starts with the SET_PROPERTY opcode. -/
theorem beginRDS_writes_eleven (c : Consts) (P : Nat) (d : Dev) (segs : List (List Nat))
    (rest : List Nat) (hbuf : 6 ≤ d._i2ccommand.length)
    (hsegs : segs.length = 11) (hack : ∀ seg ∈ segs, IsAck c seg)
    (hrx : d.rx = segs.flatten ++ rest) :
    ∃ d' new, beginRDS c P d = some d' ∧ frames d'.trace = frames d.trace ++ new ∧
      new.length = 11 ∧
      ∀ f ∈ new, f.length = 6 ∧ f.head? = some (c.CMD_SET_PROPERTY % 256) := by
  obtain ⟨d', h1, h2, _, _⟩ := setProperties_ack c (rdsProps c (P % 65536)) d segs rest
    (by simpa [rdsProps] using hsegs) hack hbuf hrx
  refine ⟨d', _, by rw [beginRDS_eq]; exact h1, h2, by simp [rdsProps], ?_⟩
  intro f hf
  simp only [List.mem_map] at hf
  obtain ⟨pv, _, rfl⟩ := hf
  simp [propFrame]

/-- Instance of the amended C9 with program id 0xADAF. -/
theorem beginRDS_writes_eleven_witness :
    ∃ d' new, beginRDS si4713 0xADAF (Dev.fresh (List.replicate 11 0x80)) = some d' ∧
      frames d'.trace = frames (Dev.fresh (List.replicate 11 0x80)).trace ++ new ∧
      new.length = 11 ∧
      ∀ f ∈ new, f.length = 6 ∧ f.head? = some (si4713.CMD_SET_PROPERTY % 256) :=
  beginRDS_writes_eleven si4713 0xADAF (Dev.fresh (List.replicate 11 0x80))
    (List.replicate 11 [0x80]) [] (by decide) (by decide)
    (all_cts_ack si4713 11 0x80 (by decide)) (by decide)

/-- C10: for every 16-bit program id `P`, on a bus that acknowledges each command, the
set-property frames that `beginRDS P` issues carry, in this order, the pairs
(TX_AUDIO_DEVIATION, 6625), (TX_RDS_DEVIATION, 200), (TX_RDS_INTERRUPT_SOURCE, 1),
(TX_RDS_PI, P), (TX_RDS_PS_MIX, 3), (TX_RDS_PS_MISC, 0x1008), (TX_RDS_PS_REPEAT_COUNT, 3),
(TX_RDS_MESSAGE_COUNT, 1), (TX_RDS_PS_AF, 0xE0E0), (TX_RDS_FIFO_SIZE, 0),
(TX_COMPONENT_ENABLE, 7); and for any other 16-bit program id the frames other than the
fourth, the TX_RDS_PI frame, are the same. -/
theorem beginRDS_pairs (c : Consts) (P : Nat) (d : Dev) (segs : List (List Nat))
    (rest : List Nat) (hids : ∀ pv ∈ rdsProps c P, pv.1 < 65536) (hP : P < 65536)
    (hbuf : 6 ≤ d._i2ccommand.length) (hsegs : segs.length = 11)
    (hack : ∀ seg ∈ segs, IsAck c seg) (hrx : d.rx = segs.flatten ++ rest) :
    ∃ d' new, beginRDS c P d = some d' ∧ frames d'.trace = frames d.trace ++ new ∧
      new.map propPair =
        [(c.PROP_TX_AUDIO_DEVIATION, 6625), (c.PROP_TX_RDS_DEVIATION, 200),
         (c.PROP_TX_RDS_INTERRUPT_SOURCE, 1), (c.PROP_TX_RDS_PI, P),
         (c.PROP_TX_RDS_PS_MIX, 3), (c.PROP_TX_RDS_PS_MISC, 0x1008),
         (c.PROP_TX_RDS_PS_REPEAT_COUNT, 3), (c.PROP_TX_RDS_MESSAGE_COUNT, 1),
         (c.PROP_TX_RDS_PS_AF, 0xE0E0), (c.PROP_TX_RDS_FIFO_SIZE, 0),
         (c.PROP_TX_COMPONENT_ENABLE, 7)] ∧
      ∀ P', P' < 65536 → ∃ d'' new', beginRDS c P' d = some d'' ∧
        frames d''.trace = frames d.trace ++ new' ∧ new'.eraseIdx 3 = new.eraseIdx 3 := by
  have hPm : P % 65536 = P := Nat.mod_eq_of_lt hP
  obtain ⟨d', h1, h2, _, _⟩ := setProperties_ack c (rdsProps c (P % 65536)) d segs rest
    (by simpa [rdsProps] using hsegs) hack hbuf hrx
  refine ⟨d', _, by rw [beginRDS_eq]; exact h1, h2, ?_, ?_⟩
  · rw [hPm, List.map_map]
    have hpair : ∀ pv ∈ rdsProps c P,
        (propPair ∘ fun pv => propFrame c pv.1 pv.2) pv = pv := by
      intro pv hpv
      have hv : pv.2 < 65536 := by
        simp only [rdsProps, List.mem_cons, List.mem_singleton, List.not_mem_nil, or_false] at hpv
        rcases hpv with h | h | h | h | h | h | h | h | h | h | h <;> rw [h] <;>
          first | exact hP | norm_num
      exact propPair_propFrame c pv.1 pv.2 (hids pv hpv) hv
    rw [List.map_congr_left hpair, List.map_id']
    rfl
  · intro P' _
    obtain ⟨d'', g1, g2, _, _⟩ := setProperties_ack c (rdsProps c (P' % 65536)) d segs rest
      (by simpa [rdsProps] using hsegs) hack hbuf hrx
    refine ⟨d'', _, by rw [beginRDS_eq]; exact g1, g2, ?_⟩
    simp [rdsProps, List.eraseIdx]

/-- Instance of C10 with program id 0xADAF and the property ids of the programming guide. -/
theorem beginRDS_pairs_witness :
    ∃ d' new, beginRDS si4713 0xADAF (Dev.fresh (List.replicate 11 0x80)) = some d' ∧
      frames d'.trace = frames (Dev.fresh (List.replicate 11 0x80)).trace ++ new ∧
      new.map propPair =
        [(si4713.PROP_TX_AUDIO_DEVIATION, 6625), (si4713.PROP_TX_RDS_DEVIATION, 200),
         (si4713.PROP_TX_RDS_INTERRUPT_SOURCE, 1), (si4713.PROP_TX_RDS_PI, 0xADAF),
         (si4713.PROP_TX_RDS_PS_MIX, 3), (si4713.PROP_TX_RDS_PS_MISC, 0x1008),
         (si4713.PROP_TX_RDS_PS_REPEAT_COUNT, 3), (si4713.PROP_TX_RDS_MESSAGE_COUNT, 1),
         (si4713.PROP_TX_RDS_PS_AF, 0xE0E0), (si4713.PROP_TX_RDS_FIFO_SIZE, 0),
         (si4713.PROP_TX_COMPONENT_ENABLE, 7)] ∧
      ∀ P', P' < 65536 → ∃ d'' new',
        beginRDS si4713 P' (Dev.fresh (List.replicate 11 0x80)) = some d'' ∧
        frames d''.trace = frames (Dev.fresh (List.replicate 11 0x80)).trace ++ new' ∧
        new'.eraseIdx 3 = new.eraseIdx 3 :=
  beginRDS_pairs si4713 0xADAF (Dev.fresh (List.replicate 11 0x80))
    (List.replicate 11 [0x80]) [] (by decide) (by decide) (by decide) (by decide)
    (all_cts_ack si4713 11 0x80 (by decide)) (by decide)

/-! ## Initialisation -/

theorem exists_three (l : List Nat) (h : 3 ≤ l.length) : ∃ a0 a1 a2 t, l = a0 :: a1 :: a2 :: t := by
  rcases l with _ | ⟨a0, _ | ⟨a1, _ | ⟨a2, t⟩⟩⟩ <;> simp at h
  exact ⟨a0, a1, a2, t, rfl⟩

/-- What `powerUp` does when the bus acknowledges each of its five commands. -/
theorem powerUp_ack (c : Consts) (d : Dev) (segs : List (List Nat)) (rest : List Nat)
    (hbuf : 6 ≤ d._i2ccommand.length) (hsegs : segs.length = 5)
    (hack : ∀ seg ∈ segs, IsAck c seg) (hrx : d.rx = segs.flatten ++ rest) :
    ∃ d', powerUp c d = some d' ∧
      frames d'.trace = frames d.trace ++
        [[c.CMD_POWER_UP % 256, 0x12, 0x50], propFrame c c.PROP_REFCLK_FREQ 32768,
          propFrame c c.PROP_TX_PREEMPHASIS 0, propFrame c c.PROP_TX_ACOMP_GAIN 10,
          propFrame c c.PROP_TX_ACOMP_ENABLE 0] ∧
      d'.rx = rest ∧ d'._i2ccommand.length = d._i2ccommand.length := by
  obtain ⟨seg, segs, rfl⟩ : ∃ seg tl, segs = seg :: tl := by
    cases segs with
    | nil => simp at hsegs
    | cons a tl => exact ⟨a, tl, rfl⟩
  obtain ⟨a0, a1, a2, t, hl⟩ := exists_three _ (show 3 ≤ d._i2ccommand.length by omega)
  have hsend := sendCommand_ack c 3 (((d.store 0 c.CMD_POWER_UP).store 1 0x12).store 2 0x50) seg
    (segs.flatten ++ rest) (hack seg (by simp)) (by simpa [Dev.store] using hrx)
  obtain ⟨d', h1, h2, h3, h4⟩ := setProperties_ack c
    [(c.PROP_REFCLK_FREQ, 32768), (c.PROP_TX_PREEMPHASIS, 0), (c.PROP_TX_ACOMP_GAIN, 10),
      (c.PROP_TX_ACOMP_ENABLE, 0x0)]
    { ((d.store 0 c.CMD_POWER_UP).store 1 0x12).store 2 0x50 with
      rx := segs.flatten ++ rest
      trace := (((d.store 0 c.CMD_POWER_UP).store 1 0x12).store 2 0x50).trace ++ Event.write
          (((((d.store 0 c.CMD_POWER_UP).store 1 0x12).store 2 0x50)._i2ccommand).take (3 % 256))
        :: List.replicate seg.length (Event.read 1) }
    segs rest (by simpa using hsegs) (fun x hx => hack x (by simp [hx]))
    (by simpa [Dev.store] using hbuf) rfl
  refine ⟨d', ?_, ?_, h3, ?_⟩
  · simp only [powerUp, Option.bind_eq_bind, hsend, Option.some_bind]
    simpa only [setProperties, Option.bind_some] using h1
  · rw [h2]
    simp [frames_append, frames, frames_replicate_read, Dev.store, hl]
  · rw [h4]
    simp [Dev.store]

/-- What `getRev` does when the bus acknowledges the query and then delivers the nine
bytes `r`. -/
theorem getRev_ack (c : Consts) (d : Dev) (seg r rest : List Nat)
    (hbuf : 2 ≤ d._i2ccommand.length) (hack : IsAck c seg) (hr : r.length = 9)
    (hrx : d.rx = seg ++ (r ++ rest)) :
    getRev c d = some (r.getD 1 0, { d with
      _i2ccommand := [c.CMD_GET_REV % 256, 0] ++ d._i2ccommand.drop 2
      rx := rest
      trace := d.trace ++ Event.write [c.CMD_GET_REV % 256, 0]
        :: (List.replicate seg.length (Event.read 1) ++ [Event.read 9]) }) := by
  obtain ⟨a0, a1, t, hl⟩ := exists_two _ hbuf
  unfold getRev
  simp only [Option.bind_eq_bind]
  rw [sendCommand_ack c 2 _ seg (r ++ rest) hack (by simpa [Dev.store] using hrx)]
  simp only [Option.some_bind]
  rw [busRead_append 9 _ r rest hr rfl]
  simp [Dev.store, hl]

theorem reset_rx (d : Dev) : (reset d).rx = d.rx := by
  unfold reset
  split <;> rfl

theorem reset_buf (d : Dev) : (reset d)._i2ccommand = d._i2ccommand := by
  unfold reset
  split <;> rfl

/-- C8: when the bus acknowledges each of the six commands of the initialisation and then
delivers the nine bytes `r` to the revision query, `begin` returns, and it returns true
exactly when the bus has opened and `r[1]`, the part number, is 13; when the bus does not
open it returns false at once. -/
theorem begin_true_iff (c : Consts) (busOpens : Bool) (d : Dev) (segs : List (List Nat))
    (r rest : List Nat) (hbuf : 6 ≤ d._i2ccommand.length) (hsegs : segs.length = 6)
    (hack : ∀ seg ∈ segs, IsAck c seg) (hr : r.length = 9)
    (hrx : d.rx = segs.flatten ++ r ++ rest) :
    (∃ res d', begin c busOpens d = some (res, d') ∧
      (res = true ↔ busOpens = true ∧ r.getD 1 0 = 13)) ∧
    begin c false d = some (false, d) := by
  refine ⟨?_, by simp [begin]⟩
  cases busOpens with
  | false => exact ⟨false, d, by simp [begin], by simp⟩
  | true =>
    obtain ⟨s1, s2, s3, s4, s5, s6, rfl⟩ : ∃ s1 s2 s3 s4 s5 s6, segs = [s1, s2, s3, s4, s5, s6] := by
      rcases segs with _ | ⟨s1, _ | ⟨s2, _ | ⟨s3, _ | ⟨s4, _ | ⟨s5, _ | ⟨s6, _ | ⟨s7, t⟩⟩⟩⟩⟩⟩⟩ <;>
        simp at hsegs
      exact ⟨s1, s2, s3, s4, s5, s6, rfl⟩
    obtain ⟨d1, h1, _, h3, h4⟩ := powerUp_ack c (reset d) [s1, s2, s3, s4, s5]
      (s6 ++ (r ++ rest)) (by rw [reset_buf]; exact hbuf) rfl
      (fun x hx => hack x (by
        simp only [List.mem_cons, List.mem_singleton, List.not_mem_nil, or_false] at hx ⊢
        tauto))
      (by rw [reset_rx, hrx]; simp)
    obtain ⟨d2, h5⟩ : ∃ d2, getRev c d1 = some (r.getD 1 0, d2) :=
      ⟨_, getRev_ack c d1 s6 r rest (by rw [h4, reset_buf]; omega) (hack s6 (by simp)) hr h3⟩
    by_cases h13 : r.getD 1 0 = 13
    · refine ⟨true, d2, ?_, fun _ => ⟨rfl, h13⟩, fun _ => rfl⟩
      simp only [begin, Bool.not_true, Bool.false_eq_true, if_false, Option.bind_eq_bind, h1,
        Option.some_bind, h5, h13, ne_eq, not_true_eq_false]
    · refine ⟨false, d2, ?_, fun h => Bool.noConfusion h, fun h => absurd h.2 h13⟩
      simp only [begin, Bool.not_true, Bool.false_eq_true, if_false, Option.bind_eq_bind, h1,
        Option.some_bind, h5, h13, ne_eq, not_false_eq_true, if_true]

/-- Instance of C8: the bus opens and the chip reports part number 13. -/
theorem begin_true_iff_witness :
    (∃ res d', begin si4713 true
        (Dev.fresh [0x80, 0x80, 0x80, 0x80, 0x80, 0x00, 0x80, 0x80, 13, 0, 0, 0, 0, 0, 0, 0])
        = some (res, d') ∧
      (res = true ↔ true = true ∧ [0x80, 13, 0, 0, 0, 0, 0, 0, 0].getD 1 0 = 13)) ∧
    begin si4713 false
        (Dev.fresh [0x80, 0x80, 0x80, 0x80, 0x80, 0x00, 0x80, 0x80, 13, 0, 0, 0, 0, 0, 0, 0])
      = some (false,
        Dev.fresh [0x80, 0x80, 0x80, 0x80, 0x80, 0x00, 0x80, 0x80, 13, 0, 0, 0, 0, 0, 0, 0]) :=
  begin_true_iff si4713 true
    (Dev.fresh [0x80, 0x80, 0x80, 0x80, 0x80, 0x00, 0x80, 0x80, 13, 0, 0, 0, 0, 0, 0, 0])
    [[0x80], [0x80], [0x80], [0x80], [0x80], [0x00, 0x80]] [0x80, 13, 0, 0, 0, 0, 0, 0, 0] []
    (by decide) (by decide)
    (fun seg hseg => by
      simp only [List.mem_cons, List.mem_singleton, List.not_mem_nil, or_false] at hseg
      rcases hseg with h | h | h | h | h | h <;> rw [h]
      · exact isAck_cts si4713 0x80 (by decide)
      · exact isAck_cts si4713 0x80 (by decide)
      · exact isAck_cts si4713 0x80 (by decide)
      · exact isAck_cts si4713 0x80 (by decide)
      · exact isAck_cts si4713 0x80 (by decide)
      · exact isAck_intro si4713 [0x00] 0x80 (by decide) (by decide))
    (by decide) (by decide)

/-! ## The command framer and the poll loops -/

/-- C11: with the clear-to-send mask `0x80`, for every frame length `len` and every stream
of status bytes whose first byte with bit `0x80` set is at index `k` (the length of `pre`),
`sendCommand len` returns after one bus write of the first `len` bytes of the frame buffer
followed by exactly `k + 1` single-byte reads, which is at least one read; the bytes after
that status byte are left unread. -/
theorem sendCommand_one_write_then_reads (c : Consts) (len : Nat) (d : Dev) (pre : List Nat)
    (b : Nat) (rest : List Nat) (hcts : c.STATUS_CTS = 0x80) (hlen : len < 256)
    (hbuf : len ≤ d._i2ccommand.length) (hpre : ∀ x ∈ pre, x &&& 0x80 = 0)
    (hb : b &&& 0x80 ≠ 0) (hrx : d.rx = pre ++ b :: rest) :
    ∃ d', sendCommand c len d = some d' ∧
      d'.trace = d.trace ++ Event.write (d._i2ccommand.take len)
        :: List.replicate (pre.length + 1) (Event.read 1) ∧
      (d._i2ccommand.take len).length = len ∧ 1 ≤ pre.length + 1 ∧ d'.rx = rest := by
  have hack : IsAck c (pre ++ [b]) :=
    isAck_intro c pre b (by rw [hcts]; exact hpre) (by rw [hcts]; exact hb)
  refine ⟨_, sendCommand_ack c len d (pre ++ [b]) rest hack (by simpa using hrx), ?_, ?_,
    by omega, rfl⟩
  · simp [Nat.mod_eq_of_lt hlen]
  · simp [hbuf]

/-- Instance of C11: a three-byte frame, the device busy twice before it is ready. -/
theorem sendCommand_one_write_then_reads_witness :
    ∃ d', sendCommand si4713 3 (Dev.fresh [0x00, 0x01, 0x80, 7]) = some d' ∧
      d'.trace = (Dev.fresh [0x00, 0x01, 0x80, 7]).trace ++
        Event.write ((Dev.fresh [0x00, 0x01, 0x80, 7])._i2ccommand.take 3)
          :: List.replicate ([0x00, 0x01].length + 1) (Event.read 1) ∧
      ((Dev.fresh [0x00, 0x01, 0x80, 7])._i2ccommand.take 3).length = 3 ∧
      1 ≤ [0x00, 0x01].length + 1 ∧ d'.rx = [7] :=
  sendCommand_one_write_then_reads si4713 3 (Dev.fresh [0x00, 0x01, 0x80, 7]) [0x00, 0x01] 0x80
    [7] rfl (by decide) (by decide) (by decide) (by decide) rfl

theorem statusQueries_append (a b : List Event) :
    statusQueries (a ++ b) = statusQueries a + statusQueries b := by
  induction a with
  | nil => simp [statusQueries]
  | cons e a ih =>
    cases e <;> simp [statusQueries, ih]
    omega

theorem delays_append (a b : List Event) : delays (a ++ b) = delays a + delays b := by
  induction a with
  | nil => simp [delays]
  | cons e a ih =>
    cases e <;> simp [delays, ih]
    omega

theorem statusQueries_replicate_read (n : Nat) :
    statusQueries (List.replicate n (Event.read 1)) = 0 := by
  induction n with
  | zero => rfl
  | succ n ih => simpa [List.replicate_succ, statusQueries] using ih

theorem delays_replicate_read (n : Nat) : delays (List.replicate n (Event.read 1)) = 0 := by
  induction n with
  | zero => rfl
  | succ n ih => simpa [List.replicate_succ, delays] using ih

theorem statusQueries_pollEvents (c : Consts) (k : Nat) :
    statusQueries (pollEvents c k) = k + 1 := by
  induction k with
  | zero => rfl
  | succ k ih => simp [pollEvents, statusQueries, ih]

theorem delays_pollEvents (c : Consts) (k : Nat) : delays (pollEvents c k) = k := by
  induction k with
  | zero => rfl
  | succ k ih => simp [pollEvents, delays, ih]

/-- C13: once its frame is acknowledged, `tuneFM` polls the interrupt status; if the first
polled byte with both bit `0x80` and bit `0x01` set, whatever its other bits, is at index
`k` (the length of `pre`), then `tuneFM` returns right after that byte, having made exactly
`k + 1` status queries and `k` delays of 10, alternating. -/
theorem tuneFM_poll_counts (c : Consts) (F : Nat) (d : Dev) (seg pre : List Nat) (b : Nat)
    (rest : List Nat) (hbuf : 4 ≤ d._i2ccommand.length) (hack : IsAck c seg)
    (hpre : ∀ x ∈ pre, x &&& 0x81 ≠ 0x81) (hb : b &&& 0x81 = 0x81)
    (hrx : d.rx = seg ++ (pre ++ b :: rest)) :
    ∃ d' frame, tuneFM c F d = some d' ∧
      d'.trace = d.trace ++ Event.write frame
        :: (List.replicate seg.length (Event.read 1) ++ pollEvents c pre.length) ∧
      statusQueries d'.trace = statusQueries d.trace + (pre.length + 1) ∧
      delays d'.trace = delays d.trace + pre.length ∧ d'.rx = rest := by
  refine ⟨_, _, tuneFM_ack c F d seg pre b rest hbuf hack hpre hb hrx, rfl, ?_, ?_, rfl⟩
  · simp [statusQueries_append, statusQueries, statusQueries_replicate_read,
      statusQueries_pollEvents]
  · simp [delays_append, delays, delays_replicate_read, delays_pollEvents]

/-- Instance of C13: the tune completes at the third poll, with status `0xA5`. -/
theorem tuneFM_poll_counts_witness :
    ∃ d' frame, tuneFM si4713 8810 (Dev.fresh [0x80, 0x80, 0x01, 0xA5, 7]) = some d' ∧
      d'.trace = (Dev.fresh [0x80, 0x80, 0x01, 0xA5, 7]).trace ++ Event.write frame
        :: (List.replicate [0x80].length (Event.read 1)
          ++ pollEvents si4713 [0x80, 0x01].length) ∧
      statusQueries d'.trace
        = statusQueries (Dev.fresh [0x80, 0x80, 0x01, 0xA5, 7]).trace
          + ([0x80, 0x01].length + 1) ∧
      delays d'.trace
        = delays (Dev.fresh [0x80, 0x80, 0x01, 0xA5, 7]).trace + [0x80, 0x01].length ∧
      d'.rx = [7] :=
  tuneFM_poll_counts si4713 8810 (Dev.fresh [0x80, 0x80, 0x01, 0xA5, 7]) [0x80] [0x80, 0x01]
    0xA5 [7] (by decide) (isAck_cts si4713 0x80 (by decide)) (by decide) (by decide) rfl

theorem readTuneMeasure_poll_starved (c : Consts) :
    ∀ (pre : List Nat) (d : Dev) (fuel : Nat), (∀ x ∈ pre, x ≠ 0x81) → d.rx = pre →
      readTuneMeasure.poll c fuel d = none := by
  intro pre
  induction pre with
  | nil =>
    intro d fuel _ hrx
    cases fuel <;> simp [readTuneMeasure.poll, getStatus, hrx]
  | cons x pre ih =>
    intro d fuel hpre hrx
    have hx : x ≠ 0x81 := hpre x (by simp)
    cases fuel with
    | zero => rfl
    | succ f =>
      simp only [readTuneMeasure.poll, getStatus, hrx, hx, ne_eq, not_false_eq_true, if_true]
      exact ih _ f (fun y hy => hpre y (by simp [hy])) rfl

/-- C14: once its frame is acknowledged, `readTuneMeasure` polls the interrupt status until
a polled byte is exactly `0x81`: if the bytes `pre` polled before it all differ from `0x81`
it returns after `k + 1` queries and `k` delays (`k` the length of `pre`).  A byte `x` with
bits `0x80` and `0x01` set together with another bit, such as `0x85`, does not end that
poll: followed by `0x81` both bytes are consumed, and with nothing after it the poll does
not finish; the same byte ends the poll of `tuneFM` at once. -/
theorem readTuneMeasure_polls_until_exact (c : Consts) (F : Nat) (d : Dev)
    (seg pre : List Nat) (x : Nat) (rest : List Nat) (hbuf : 5 ≤ d._i2ccommand.length)
    (hack : IsAck c seg) (hpre : ∀ y ∈ pre, y ≠ 0x81) (hx1 : x &&& 0x81 = 0x81)
    (hx2 : x ≠ 0x81) (hrx : d.rx = seg ++ (pre ++ 0x81 :: rest)) :
    (∃ d', readTuneMeasure c F d = some d' ∧ d'.rx = rest ∧
      statusQueries d'.trace = statusQueries d.trace + (pre.length + 1) ∧
      delays d'.trace = delays d.trace + pre.length) ∧
    (∃ d', readTuneMeasure c F { d with rx := seg ++ x :: 0x81 :: rest } = some d' ∧
      d'.rx = rest ∧ statusQueries d'.trace = statusQueries d.trace + 2 ∧
      delays d'.trace = delays d.trace + 1) ∧
    readTuneMeasure c F { d with rx := seg ++ [x] } = none ∧
    (∃ d', tuneFM c F { d with rx := seg ++ x :: 0x81 :: rest } = some d' ∧
      d'.rx = 0x81 :: rest ∧ statusQueries d'.trace = statusQueries d.trace + 1 ∧
      delays d'.trace = delays d.trace) ∧
    (0x85 &&& 0x81 = 0x81 ∧ 0x85 ≠ 0x81) := by
  refine ⟨⟨_, readTuneMeasure_ack c F d seg pre rest hbuf hack hpre hrx, rfl, ?_, ?_⟩,
    ⟨_, readTuneMeasure_ack c F _ seg [x] rest hbuf hack (by simpa using hx2) rfl, rfl, ?_, ?_⟩,
    ?_,
    ⟨_, tuneFM_ack c F _ seg [] x (0x81 :: rest) (by simpa using (show 4 ≤ _ by omega)) hack
      (by simp) hx1 rfl, rfl, ?_, ?_⟩,
    by decide⟩
  · simp [statusQueries_append, statusQueries, statusQueries_replicate_read,
      statusQueries_pollEvents]
  · simp [delays_append, delays, delays_replicate_read, delays_pollEvents]
  · simp [statusQueries_append, statusQueries, statusQueries_replicate_read,
      statusQueries_pollEvents]
  · simp [delays_append, delays, delays_replicate_read, delays_pollEvents]
  · obtain ⟨a0, a1, a2, a3, a4, t, hl⟩ := exists_five _ hbuf
    unfold readTuneMeasure
    simp only [Option.bind_eq_bind]
    rw [sendCommand_ack c 5 _ seg [x] hack (by simp [Dev.store])]
    simp only [Option.some_bind]
    exact readTuneMeasure_poll_starved c [x] _ _ (by simpa using hx2) rfl
  · simp [statusQueries_append, statusQueries, statusQueries_replicate_read,
      statusQueries_pollEvents]
  · simp [delays_append, delays, delays_replicate_read, delays_pollEvents]

/-- Instance of C14 with the status byte `0x85`. -/
theorem readTuneMeasure_polls_until_exact_witness :
    (∃ d', readTuneMeasure si4713 8810 (Dev.fresh [0x80, 0x00, 0x81, 7]) = some d' ∧
      d'.rx = [7] ∧
      statusQueries d'.trace
        = statusQueries (Dev.fresh [0x80, 0x00, 0x81, 7]).trace + ([0x00].length + 1) ∧
      delays d'.trace = delays (Dev.fresh [0x80, 0x00, 0x81, 7]).trace + [0x00].length) ∧
    (∃ d', readTuneMeasure si4713 8810
        { Dev.fresh [0x80, 0x00, 0x81, 7] with rx := [0x80] ++ 0x85 :: 0x81 :: [7] } = some d' ∧
      d'.rx = [7] ∧
      statusQueries d'.trace = statusQueries (Dev.fresh [0x80, 0x00, 0x81, 7]).trace + 2 ∧
      delays d'.trace = delays (Dev.fresh [0x80, 0x00, 0x81, 7]).trace + 1) ∧
    readTuneMeasure si4713 8810 { Dev.fresh [0x80, 0x00, 0x81, 7] with rx := [0x80] ++ [0x85] }
      = none ∧
    (∃ d', tuneFM si4713 8810
        { Dev.fresh [0x80, 0x00, 0x81, 7] with rx := [0x80] ++ 0x85 :: 0x81 :: [7] } = some d' ∧
      d'.rx = 0x81 :: [7] ∧
      statusQueries d'.trace = statusQueries (Dev.fresh [0x80, 0x00, 0x81, 7]).trace + 1 ∧
      delays d'.trace = delays (Dev.fresh [0x80, 0x00, 0x81, 7]).trace) ∧
    (0x85 &&& 0x81 = 0x81 ∧ 0x85 ≠ 0x81) :=
  readTuneMeasure_polls_until_exact si4713 8810 (Dev.fresh [0x80, 0x00, 0x81, 7]) [0x80] [0x00]
    0x85 [7] (by decide) (isAck_cts si4713 0x80 (by decide)) (by decide) (by decide)
    (by decide) rfl

/-! ## Audio signal quality -/

/-- What `readASQ` does when the bus answers the query with the run `seg` and then
delivers the five bytes `r`. -/
theorem readASQ_ack (c : Consts) (d : Dev) (seg r rest : List Nat)
    (hbuf : 2 ≤ d._i2ccommand.length) (hack : IsAck c seg) (hr : r.length = 5)
    (hrx : d.rx = seg ++ (r ++ rest)) :
    readASQ c d = some { d with
      _i2ccommand := [c.CMD_TX_ASQ_STATUS % 256, 1] ++ d._i2ccommand.drop 2
      rx := rest
      trace := d.trace ++ Event.write [c.CMD_TX_ASQ_STATUS % 256, 1]
        :: (List.replicate seg.length (Event.read 1) ++ [Event.read 5])
      currASQ := r.getD 1 0
      currInLevel := toInt8 (r.getD 4 0) } := by
  obtain ⟨a0, a1, t, hl⟩ := exists_two _ hbuf
  unfold readASQ
  simp only [Option.bind_eq_bind]
  rw [sendCommand_ack c 2 _ seg (r ++ rest) hack (by simpa [Dev.store] using hrx)]
  simp only [Option.some_bind]
  rw [busRead_append 5 _ r rest hr rfl]
  simp [Dev.store, hl]

theorem toInt8_byte (b : Nat) (hb : b < 256) :
    toInt8 b = if b < 128 then (b : Int) else (b : Int) - 256 := by
  unfold toInt8
  split <;> omega

/-- C16, as stated, fails: when byte 4 of the response is `0xEC`, `readASQ` leaves
`currInLevel = -20`, not `0xEC = 236`, because the field is an `int8_t`. -/
theorem readASQ_level_is_signed :
    (readASQ si4713 (Dev.fresh [0x00, 0x80, 0x80, 3, 0, 0, 0xEC, 7])).map
        (fun d => d.currInLevel) = some (-20) ∧
      (readASQ si4713 (Dev.fresh [0x00, 0x80, 0x80, 3, 0, 0, 0xEC, 7])).map
        (fun d => d.currInLevel) ≠ some 0xEC := by
  rw [readASQ_ack si4713 (Dev.fresh [0x00, 0x80, 0x80, 3, 0, 0, 0xEC, 7]) [0x00, 0x80]
    [0x80, 3, 0, 0, 0xEC] [7] (by decide) (isAck_intro si4713 [0x00] 0x80 (by decide) (by decide))
    rfl rfl]
  simp [toInt8]

/-- C16, amended: when the bus answers the query and then delivers the five bytes `r`,
`readASQ` returns, has written the one frame `[TX_ASQ_STATUS, 0x01]`, and leaves
`currASQ = r[1]` and `currInLevel` equal to `r[4]` read as a signed 8-bit value, that is
`r[4]` when `r[4] < 128` and `r[4] - 256` otherwise; putting any other values in `r[0]`,
`r[2]` and `r[3]` leaves both fields the same. -/
theorem readASQ_decodes (c : Consts) (d : Dev) (seg r rest : List Nat)
    (hop : c.CMD_TX_ASQ_STATUS < 256) (hbuf : 2 ≤ d._i2ccommand.length) (hack : IsAck c seg)
    (hr : r.length = 5) (hbytes : ∀ x ∈ r, x < 256) (hrx : d.rx = seg ++ r ++ rest) :
    ∃ d', readASQ c d = some d' ∧
      frames d'.trace = frames d.trace ++ [[c.CMD_TX_ASQ_STATUS, 0x01]] ∧
      d'.currASQ = r.getD 1 0 ∧
      d'.currInLevel
        = (if r.getD 4 0 < 128 then (r.getD 4 0 : Int) else (r.getD 4 0 : Int) - 256) ∧
      ∀ x0 x2 x3 : Nat, ∃ d'',
        readASQ c { d with rx := seg ++ ((r.set 0 x0).set 2 x2).set 3 x3 ++ rest } = some d'' ∧
        d''.currASQ = d'.currASQ ∧ d''.currInLevel = d'.currInLevel := by
  refine ⟨_, readASQ_ack c d seg r rest hbuf hack hr (by simpa using hrx), ?_, rfl, ?_, ?_⟩
  · simp [frames_append, frames, frames_replicate_read, Nat.mod_eq_of_lt hop]
  · rcases r with _ | ⟨r0, _ | ⟨r1, _ | ⟨r2, _ | ⟨r3, _ | ⟨r4, t⟩⟩⟩⟩⟩ <;> simp at hr
    have h4 : r4 < 256 := hbytes r4 (by simp)
    simpa using toInt8_byte r4 h4
  · intro x0 x2 x3
    refine ⟨_, readASQ_ack c _ seg (((r.set 0 x0).set 2 x2).set 3 x3) rest hbuf hack
      (by simpa using hr) (by simp), ?_⟩
    rcases r with _ | ⟨r0, _ | ⟨r1, _ | ⟨r2, _ | ⟨r3, _ | ⟨r4, t⟩⟩⟩⟩⟩ <;> simp at hr
    simp

/-- Instance of the amended C16: a response carrying quality flags 3 and the input level
byte `0xEC`, that is -20. -/
theorem readASQ_decodes_witness :
    ∃ d', readASQ si4713 (Dev.fresh [0x00, 0x80, 0x80, 3, 0, 0, 0xEC, 7]) = some d' ∧
      frames d'.trace = frames (Dev.fresh [0x00, 0x80, 0x80, 3, 0, 0, 0xEC, 7]).trace ++
        [[si4713.CMD_TX_ASQ_STATUS, 0x01]] ∧
      d'.currASQ = [0x80, 3, 0, 0, 0xEC].getD 1 0 ∧
      d'.currInLevel
        = (if [0x80, 3, 0, 0, 0xEC].getD 4 0 < 128 then ([0x80, 3, 0, 0, 0xEC].getD 4 0 : Int)
          else ([0x80, 3, 0, 0, 0xEC].getD 4 0 : Int) - 256) ∧
      ∀ x0 x2 x3 : Nat, ∃ d'',
        readASQ si4713 { Dev.fresh [0x00, 0x80, 0x80, 3, 0, 0, 0xEC, 7] with
            rx := [0x00, 0x80] ++ (([0x80, 3, 0, 0, 0xEC].set 0 x0).set 2 x2).set 3 x3 ++ [7] }
          = some d'' ∧
        d''.currASQ = d'.currASQ ∧ d''.currInLevel = d'.currInLevel :=
  readASQ_decodes si4713 (Dev.fresh [0x00, 0x80, 0x80, 3, 0, 0, 0xEC, 7]) [0x00, 0x80]
    [0x80, 3, 0, 0, 0xEC] [7] (by decide) (by decide)
    (isAck_intro si4713 [0x00] 0x80 (by decide) (by decide)) rfl (by decide) rfl

/-! ## Frequency encoding and decoding -/

/-- C19: for every 16-bit `F`, `tuneFM F` writes a frame such that (1) whenever an 8-byte
tune-status response carries in bytes 2 and 3 the bytes 2 and 3 of that frame,
`readTuneStatus` sets `currFreq = F`, and (2) when `F` is a multiple of 5,
`readTuneMeasure F` writes a frame with the same bytes 2 and 3. -/
theorem freq_encode_decode (c : Consts) (F : Nat) (d : Dev) (seg run rest : List Nat)
    (hF : F < 65536) (hbuf : 4 ≤ d._i2ccommand.length) (hack : IsAck c seg)
    (hdone : IsTuneDone run) (hrx : d.rx = seg ++ run ++ rest) :
    ∃ d' frame, tuneFM c F d = some d' ∧ frames d'.trace = frames d.trace ++ [frame] ∧
      (∀ (ds : Dev) (sseg r srest : List Nat), 2 ≤ ds._i2ccommand.length → IsAck c sseg →
        r.length = 8 → r.getD 2 0 = frame.getD 2 0 → r.getD 3 0 = frame.getD 3 0 →
        ds.rx = sseg ++ r ++ srest →
        ∃ ds', readTuneStatus c ds = some ds' ∧ ds'.currFreq = F) ∧
      (F % 5 = 0 → ∀ (dm : Dev) (mseg mrun mrest : List Nat), 5 ≤ dm._i2ccommand.length →
        IsAck c mseg → IsMeasureDone mrun → dm.rx = mseg ++ mrun ++ mrest →
        ∃ dm' mframe, readTuneMeasure c F dm = some dm' ∧
          frames dm'.trace = frames dm.trace ++ [mframe] ∧
          mframe.getD 2 0 = frame.getD 2 0 ∧ mframe.getD 3 0 = frame.getD 3 0) := by
  obtain ⟨pre, b, rfl, hpre, hb⟩ := hdone
  have hhi : F >>> 8 < 256 := by
    rw [Nat.shiftRight_eq_div_pow]
    omega
  have hlo : F % 256 < 256 := Nat.mod_lt _ (by decide)
  refine ⟨_, [c.CMD_TX_TUNE_FREQ % 256, 0, F >>> 8, F % 256],
    tuneFM_ack c F d seg pre b rest hbuf hack hpre hb (by simpa using hrx), ?_, ?_, ?_⟩
  · rw [byte_hi F hF, Nat.mod_eq_of_lt hF]
    simp [frames_append, frames, frames_replicate_read, frames_pollEvents]
  · intro ds sseg r srest hsbuf hsack hr h2 h3 hsrx
    refine ⟨_, readTuneStatus_ack c ds sseg r srest hsbuf hsack hr (by simpa using hsrx), ?_⟩
    have e2 : r.getD 2 0 = F >>> 8 := by simpa using h2
    have e3 : r.getD 3 0 = F % 256 := by simpa using h3
    show ((r.getD 2 0 <<< 8) ||| r.getD 3 0) % 65536 = F
    rw [e2, e3, be_decode _ _ hhi hlo, Nat.shiftRight_eq_div_pow]
    omega
  · intro h5 dm mseg mrun mrest hmbuf hmack hmdone hmrx
    obtain ⟨mpre, rfl, hmpre⟩ := hmdone
    have hal : readTuneMeasure.align (F % 65536) = F := by
      rw [Nat.mod_eq_of_lt hF, align_eq F hF]
      omega
    refine ⟨_, [c.CMD_TX_TUNE_MEASURE % 256, 0, F >>> 8, F % 256, 0],
      readTuneMeasure_ack c F dm mseg mpre mrest hmbuf hmack hmpre (by simpa using hmrx), ?_,
      rfl, rfl⟩
    rw [hal, Nat.mod_eq_of_lt hhi]
    simp [frames_append, frames, frames_replicate_read, frames_pollEvents]

/-- Instance of C19 for the frequency 8810, a multiple of 5. -/
theorem freq_encode_decode_witness :
    ∃ d' frame, tuneFM si4713 8810 (Dev.fresh [0x80, 0x81, 7]) = some d' ∧
      frames d'.trace = frames (Dev.fresh [0x80, 0x81, 7]).trace ++ [frame] ∧
      (∀ (ds : Dev) (sseg r srest : List Nat), 2 ≤ ds._i2ccommand.length → IsAck si4713 sseg →
        r.length = 8 → r.getD 2 0 = frame.getD 2 0 → r.getD 3 0 = frame.getD 3 0 →
        ds.rx = sseg ++ r ++ srest →
        ∃ ds', readTuneStatus si4713 ds = some ds' ∧ ds'.currFreq = 8810) ∧
      (8810 % 5 = 0 → ∀ (dm : Dev) (mseg mrun mrest : List Nat), 5 ≤ dm._i2ccommand.length →
        IsAck si4713 mseg → IsMeasureDone mrun → dm.rx = mseg ++ mrun ++ mrest →
        ∃ dm' mframe, readTuneMeasure si4713 8810 dm = some dm' ∧
          frames dm'.trace = frames dm.trace ++ [mframe] ∧
          mframe.getD 2 0 = frame.getD 2 0 ∧ mframe.getD 3 0 = frame.getD 3 0) :=
  freq_encode_decode si4713 8810 (Dev.fresh [0x80, 0x81, 7]) [0x80] [0x81] [7] (by decide)
    (by decide) (isAck_cts si4713 0x80 (by decide)) (isTuneDone_intro [] 0x81 (by simp) rfl) rfl

/-! ## The reset line -/

theorem toInt8_eq (x : Int) (hlo : -128 ≤ x) (hhi : x ≤ 127) : toInt8 x = x := by
  unfold toInt8
  omega

/-- C20: for a driver constructed with the reset pin number `resetpin` (an `int8_t`),
`reset` performs the sequence pin as output, high, delay 10, low, delay 10, high, and
nothing else, when `resetpin > 0`; for pin number 0 and for every negative pin number it
does nothing at all. -/
theorem reset_pin_sequence (resetpin : Int) (d : Dev) (hlo : -128 ≤ resetpin)
    (hhi : resetpin ≤ 127) :
    (0 < resetpin → reset (Adafruit_Si4713 resetpin d) = { Adafruit_Si4713 resetpin d with
      trace := d.trace ++
        [Event.pinMode resetpin, Event.digitalWrite resetpin true, Event.delay 10,
         Event.digitalWrite resetpin false, Event.delay 10,
         Event.digitalWrite resetpin true] }) ∧
    (resetpin ≤ 0 → reset (Adafruit_Si4713 resetpin d) = Adafruit_Si4713 resetpin d) := by
  have h8 := toInt8_eq resetpin hlo hhi
  constructor
  · intro hpos
    simp [reset, Adafruit_Si4713, h8, hpos]
  · intro hneg
    have : ¬ resetpin > 0 := by omega
    simp [reset, Adafruit_Si4713, h8, this]

/-- Instance of C20: the reset line on pin 12. -/
theorem reset_pin_sequence_witness :
    (0 < (12 : Int) → reset (Adafruit_Si4713 12 (Dev.fresh []))
      = { Adafruit_Si4713 12 (Dev.fresh []) with
        trace := (Dev.fresh []).trace ++
          [Event.pinMode 12, Event.digitalWrite 12 true, Event.delay 10,
           Event.digitalWrite 12 false, Event.delay 10, Event.digitalWrite 12 true] }) ∧
    ((12 : Int) ≤ 0 → reset (Adafruit_Si4713 12 (Dev.fresh []))
      = Adafruit_Si4713 12 (Dev.fresh [])) :=
  reset_pin_sequence 12 (Dev.fresh []) (by decide) (by decide)

/-! ## The frames of the initialisation -/

theorem frames_reset (d : Dev) : frames (reset d).trace = frames d.trace := by
  unfold reset
  split
  · simp [frames_append, frames]
  · rfl

theorem propFrame_eq (c : Consts) (p v : Nat) (hop : c.CMD_SET_PROPERTY < 256)
    (hp : p < 65536) (hv : v < 65536) :
    propFrame c p v = [c.CMD_SET_PROPERTY, 0, p >>> 8, p &&& 0xFF, v >>> 8, v &&& 0xFF] := by
  simp only [propFrame, byte_hi p hp, byte_lo p hp, byte_hi v hv, byte_lo v hv,
    Nat.mod_eq_of_lt hop]

/-- C15: when the bus opens and acknowledges each command, `begin` hands to the command
framer exactly six frames, whatever the nine bytes `r` of the revision response are: the
power-up frame `[POWER_UP, 0x12, 0x50]`, the set-property frames for (REFCLK_FREQ, 32768),
(TX_PREEMPHASIS, 0), (TX_ACOMP_GAIN, 10), (TX_ACOMP_ENABLE, 0), and the revision query
`[GET_REV, 0]`; when the bus does not open, `begin` writes no frame. -/
theorem begin_writes_six_frames (c : Consts) (d : Dev) (segs : List (List Nat))
    (r rest : List Nat) (hpu : c.CMD_POWER_UP < 256) (hsp : c.CMD_SET_PROPERTY < 256)
    (hgr : c.CMD_GET_REV < 256) (hp1 : c.PROP_REFCLK_FREQ < 65536)
    (hp2 : c.PROP_TX_PREEMPHASIS < 65536) (hp3 : c.PROP_TX_ACOMP_GAIN < 65536)
    (hp4 : c.PROP_TX_ACOMP_ENABLE < 65536) (hbuf : 6 ≤ d._i2ccommand.length)
    (hsegs : segs.length = 6) (hack : ∀ seg ∈ segs, IsAck c seg) (hr : r.length = 9)
    (hrx : d.rx = segs.flatten ++ r ++ rest) :
    (∃ res d', begin c true d = some (res, d') ∧
      frames d'.trace = frames d.trace ++
        [[c.CMD_POWER_UP, 0x12, 0x50],
         [c.CMD_SET_PROPERTY, 0, c.PROP_REFCLK_FREQ >>> 8, c.PROP_REFCLK_FREQ &&& 0xFF,
           32768 >>> 8, 32768 &&& 0xFF],
         [c.CMD_SET_PROPERTY, 0, c.PROP_TX_PREEMPHASIS >>> 8, c.PROP_TX_PREEMPHASIS &&& 0xFF,
           0 >>> 8, 0 &&& 0xFF],
         [c.CMD_SET_PROPERTY, 0, c.PROP_TX_ACOMP_GAIN >>> 8, c.PROP_TX_ACOMP_GAIN &&& 0xFF,
           10 >>> 8, 10 &&& 0xFF],
         [c.CMD_SET_PROPERTY, 0, c.PROP_TX_ACOMP_ENABLE >>> 8, c.PROP_TX_ACOMP_ENABLE &&& 0xFF,
           0 >>> 8, 0 &&& 0xFF],
         [c.CMD_GET_REV, 0]]) ∧
    (∃ d', begin c false d = some (false, d') ∧ frames d'.trace = frames d.trace) := by
  refine ⟨?_, d, by simp [begin], rfl⟩
  obtain ⟨s1, s2, s3, s4, s5, s6, rfl⟩ : ∃ s1 s2 s3 s4 s5 s6, segs = [s1, s2, s3, s4, s5, s6] := by
    rcases segs with _ | ⟨s1, _ | ⟨s2, _ | ⟨s3, _ | ⟨s4, _ | ⟨s5, _ | ⟨s6, _ | ⟨s7, t⟩⟩⟩⟩⟩⟩⟩ <;>
      simp at hsegs
    exact ⟨s1, s2, s3, s4, s5, s6, rfl⟩
  obtain ⟨d1, h1, h2, h3, h4⟩ := powerUp_ack c (reset d) [s1, s2, s3, s4, s5]
    (s6 ++ (r ++ rest)) (by rw [reset_buf]; exact hbuf) rfl
    (fun x hx => hack x (by
      simp only [List.mem_cons, List.mem_singleton, List.not_mem_nil, or_false] at hx ⊢
      tauto))
    (by rw [reset_rx, hrx]; simp)
  have h5 := getRev_ack c d1 s6 r rest (by rw [h4, reset_buf]; omega) (hack s6 (by simp)) hr h3
  have hfr : ∀ res : Bool, ∃ d', (some (res, { d1 with
      _i2ccommand := [c.CMD_GET_REV % 256, 0] ++ d1._i2ccommand.drop 2
      rx := rest
      trace := d1.trace ++ Event.write [c.CMD_GET_REV % 256, 0]
        :: (List.replicate s6.length (Event.read 1) ++ [Event.read 9]) }) : Option (Bool × Dev))
        = some (res, d') ∧
      frames d'.trace = frames d.trace ++
        [[c.CMD_POWER_UP, 0x12, 0x50],
         [c.CMD_SET_PROPERTY, 0, c.PROP_REFCLK_FREQ >>> 8, c.PROP_REFCLK_FREQ &&& 0xFF,
           32768 >>> 8, 32768 &&& 0xFF],
         [c.CMD_SET_PROPERTY, 0, c.PROP_TX_PREEMPHASIS >>> 8, c.PROP_TX_PREEMPHASIS &&& 0xFF,
           0 >>> 8, 0 &&& 0xFF],
         [c.CMD_SET_PROPERTY, 0, c.PROP_TX_ACOMP_GAIN >>> 8, c.PROP_TX_ACOMP_GAIN &&& 0xFF,
           10 >>> 8, 10 &&& 0xFF],
         [c.CMD_SET_PROPERTY, 0, c.PROP_TX_ACOMP_ENABLE >>> 8, c.PROP_TX_ACOMP_ENABLE &&& 0xFF,
           0 >>> 8, 0 &&& 0xFF],
         [c.CMD_GET_REV, 0]] := by
    intro res
    refine ⟨_, rfl, ?_⟩
    simp only [frames_append, frames, frames_replicate_read, h2, frames_reset,
      Nat.mod_eq_of_lt hpu, Nat.mod_eq_of_lt hgr,
      propFrame_eq c _ 32768 hsp hp1 (by norm_num), propFrame_eq c _ 0 hsp hp2 (by norm_num),
      propFrame_eq c _ 10 hsp hp3 (by norm_num), propFrame_eq c _ 0 hsp hp4 (by norm_num)]
    simp
  by_cases h13 : r.getD 1 0 = 13
  · obtain ⟨d', e1, e2⟩ := hfr true
    refine ⟨true, d', ?_, e2⟩
    simp only [begin, Bool.not_true, Bool.false_eq_true, if_false, Option.bind_eq_bind, h1,
      Option.some_bind, h5, h13, ne_eq, not_true_eq_false]
    exact e1
  · obtain ⟨d', e1, e2⟩ := hfr false
    refine ⟨false, d', ?_, e2⟩
    simp only [begin, Bool.not_true, Bool.false_eq_true, if_false, Option.bind_eq_bind, h1,
      Option.some_bind, h5, h13, ne_eq, not_false_eq_true, if_true]
    exact e1

/-- Instance of C15: the six frames go out although the part number read back is 99. -/
theorem begin_writes_six_frames_witness :
    (∃ res d', begin si4713 true
        (Dev.fresh
          [0x80, 0x80, 0x80, 0x80, 0x80, 0x80, 0x80, 99, 0, 0, 0, 0, 0, 0, 0]) = some (res, d') ∧
      frames d'.trace
        = frames (Dev.fresh
          [0x80, 0x80, 0x80, 0x80, 0x80, 0x80, 0x80, 99, 0, 0, 0, 0, 0, 0, 0]).trace ++
        [[si4713.CMD_POWER_UP, 0x12, 0x50],
         [si4713.CMD_SET_PROPERTY, 0, si4713.PROP_REFCLK_FREQ >>> 8,
           si4713.PROP_REFCLK_FREQ &&& 0xFF, 32768 >>> 8, 32768 &&& 0xFF],
         [si4713.CMD_SET_PROPERTY, 0, si4713.PROP_TX_PREEMPHASIS >>> 8,
           si4713.PROP_TX_PREEMPHASIS &&& 0xFF, 0 >>> 8, 0 &&& 0xFF],
         [si4713.CMD_SET_PROPERTY, 0, si4713.PROP_TX_ACOMP_GAIN >>> 8,
           si4713.PROP_TX_ACOMP_GAIN &&& 0xFF, 10 >>> 8, 10 &&& 0xFF],
         [si4713.CMD_SET_PROPERTY, 0, si4713.PROP_TX_ACOMP_ENABLE >>> 8,
           si4713.PROP_TX_ACOMP_ENABLE &&& 0xFF, 0 >>> 8, 0 &&& 0xFF],
         [si4713.CMD_GET_REV, 0]]) ∧
    (∃ d', begin si4713 false
        (Dev.fresh
          [0x80, 0x80, 0x80, 0x80, 0x80, 0x80, 0x80, 99, 0, 0, 0, 0, 0, 0, 0]) = some (false, d') ∧
      frames d'.trace
        = frames (Dev.fresh
          [0x80, 0x80, 0x80, 0x80, 0x80, 0x80, 0x80, 99, 0, 0, 0, 0, 0, 0, 0]).trace) :=
  begin_writes_six_frames si4713
    (Dev.fresh
          [0x80, 0x80, 0x80, 0x80, 0x80, 0x80, 0x80, 99, 0, 0, 0, 0, 0, 0, 0])
    (List.replicate 6 [0x80]) [0x80, 99, 0, 0, 0, 0, 0, 0, 0] [] (by decide) (by decide)
    (by decide) (by decide) (by decide) (by decide) (by decide) (by decide) (by decide)
    (all_cts_ack si4713 6 0x80 (by decide)) (by decide) (by decide)

/-! ## The RDS buffer string -/

theorem exists_nine (l : List Nat) (h : 9 ≤ l.length) :
    ∃ a0 a1 a2 a3 a4 a5 a6 a7 a8 t,
      l = a0 :: a1 :: a2 :: a3 :: a4 :: a5 :: a6 :: a7 :: a8 :: t := by
  rcases l with _ | ⟨a0, _ | ⟨a1, _ | ⟨a2, _ | ⟨a3, _ | ⟨a4, _ | ⟨a5, _ | ⟨a6, _ | ⟨a7,
    _ | ⟨a8, t⟩⟩⟩⟩⟩⟩⟩⟩⟩ <;> simp at h
  exact ⟨a0, a1, a2, a3, a4, a5, a6, a7, a8, t, rfl⟩

/-- The eight bytes that one turn of the `setRDSbuffer` loop hands to `sendCommand`. -/
theorem buffer_frame (buf s : List Nat) (op i flag : Nat) (hbuf : 9 ≤ buf.length)
    (hs : ∀ x ∈ s, x ≠ 0) :
    ((((((memcpy (memset buf 0x20 8) 4 s (min 4 (strlen s))).set 8 (0 % 256)).set 0
        (op % 256)).set 1 (flag % 256)).set 2 (0x20 % 256)).set 3 (i % 256)).take (8 % 256)
      = [op % 256, flag % 256, 0x20, i % 256, s.getD 0 0x20, s.getD 1 0x20, s.getD 2 0x20,
          s.getD 3 0x20] := by
  obtain ⟨a0, a1, a2, a3, a4, a5, a6, a7, a8, t, rfl⟩ := exists_nine _ hbuf
  rw [strlen_eq_length s hs]
  rcases s with _ | ⟨x0, _ | ⟨x1, _ | ⟨x2, _ | ⟨x3, u⟩⟩⟩⟩ <;> simp [memset, memcpy]

/-- What one turn of the `setRDSbuffer` loop does when the bus answers with `seg`. -/
theorem buffer_slot_ack (c : Consts) (i : Nat) (s : List Nat) (d : Dev) (seg rest : List Nat)
    (hs : ∀ x ∈ s, x ≠ 0) (hbuf : 9 ≤ d._i2ccommand.length) (hack : IsAck c seg)
    (hrx : d.rx = seg ++ rest) :
    ∃ buf, buf.length = d._i2ccommand.length ∧
      setRDSbuffer.slot c i s d = some { d with
        _i2ccommand := buf
        rx := rest
        trace := d.trace ++ Event.write
            [c.CMD_TX_RDS_BUFF % 256, if i = 0 then 0x06 else 0x04, 0x20, i % 256,
              s.getD 0 0x20, s.getD 1 0x20, s.getD 2 0x20, s.getD 3 0x20]
          :: List.replicate seg.length (Event.read 1) } := by
  by_cases hi : i = 0
  · refine ⟨(((((memcpy (memset d._i2ccommand 0x20 8) 4 s (min 4 (strlen s))).set 8
      (0 % 256)).set 0 (c.CMD_TX_RDS_BUFF % 256)).set 1 (0x06 % 256)).set 2
      (0x20 % 256)).set 3 (i % 256), by simp [length_memset, length_memcpy], ?_⟩
    unfold setRDSbuffer.slot
    simp only [hi, if_true]
    rw [sendCommand_ack c 8 _ seg rest hack (by simpa [Dev.store] using hrx)]
    simp only [Dev.store]
    rw [buffer_frame _ s _ 0 0x06 hbuf hs]
  · refine ⟨(((((memcpy (memset d._i2ccommand 0x20 8) 4 s (min 4 (strlen s))).set 8
      (0 % 256)).set 0 (c.CMD_TX_RDS_BUFF % 256)).set 1 (0x04 % 256)).set 2
      (0x20 % 256)).set 3 (i % 256), by simp [length_memset, length_memcpy], ?_⟩
    unfold setRDSbuffer.slot
    simp only [hi, if_false]
    rw [sendCommand_ack c 8 _ seg rest hack (by simpa [Dev.store] using hrx)]
    simp only [Dev.store]
    rw [buffer_frame _ s _ i 0x04 hbuf hs]

theorem buffer_loop_ack (c : Consts) (slots : Nat) (hslots : slots < 256) :
    ∀ (n i : Nat) (s : List Nat) (d : Dev) (segs : List (List Nat)) (rest : List Nat),
      (∀ x ∈ s, x ≠ 0) → i + n = slots → segs.length = n → (∀ seg ∈ segs, IsAck c seg) →
      9 ≤ d._i2ccommand.length → d.rx = segs.flatten ++ rest →
      ∃ d', setRDSbuffer.loop c slots n i s d = some d' ∧
        frames d'.trace = frames d.trace ++ bufWrites c n i s ∧ d'.rx = rest ∧
        d'._i2ccommand.length = d._i2ccommand.length := by
  intro n
  induction n with
  | zero =>
    intro i s d segs rest _ hi hlen _ _ hrx
    have hsegs : segs = [] := List.length_eq_zero.mp hlen
    subst hsegs
    refine ⟨d, ?_, by simp [bufWrites], by simpa using hrx, rfl⟩
    have : ¬ i < slots := by omega
    simp [setRDSbuffer.loop, this]
  | succ n ih =>
    intro i s d segs rest hs hi hlen hack hbuf hrx
    obtain ⟨seg, segs, rfl⟩ : ∃ seg tl, segs = seg :: tl := by
      cases segs with
      | nil => simp at hlen
      | cons a tl => exact ⟨a, tl, rfl⟩
    have hlt : i < slots := by omega
    have hi1 : (i + 1) % 256 = i + 1 := Nat.mod_eq_of_lt (by omega)
    obtain ⟨buf, hbl, hslot⟩ := buffer_slot_ack c i s d seg (segs.flatten ++ rest) hs hbuf
      (hack seg (by simp)) (by simpa using hrx)
    obtain ⟨d', h1, h2, h3, h4⟩ := ih (i + 1) (s.drop 4)
      { d with
        _i2ccommand := buf
        rx := segs.flatten ++ rest
        trace := d.trace ++ Event.write
            [c.CMD_TX_RDS_BUFF % 256, if i = 0 then 0x06 else 0x04, 0x20, i % 256,
              s.getD 0 0x20, s.getD 1 0x20, s.getD 2 0x20, s.getD 3 0x20]
          :: List.replicate seg.length (Event.read 1) }
      segs rest (nonzero_drop s 4 hs) (by omega)
      (by simpa using hlen) (fun x hx => hack x (by simp [hx]))
      (show 9 ≤ buf.length by omega) rfl
    refine ⟨d', ?_, ?_, h3, by simpa [hbl] using h4⟩
    · simp only [setRDSbuffer.loop, hlt, if_true, Option.bind_eq_bind, hslot, Option.some_bind,
        hi1]
      exact h1
    · rw [h2]
      simp [frames_append, frames, frames_replicate_read, bufWrites]

theorem bufWrites_eq_map (c : Consts) (hop : c.CMD_TX_RDS_BUFF < 256) :
    ∀ (n i : Nat) (s : List Nat), i + n ≤ 256 →
      bufWrites c n i s = (List.range n).map (fun k =>
        [c.CMD_TX_RDS_BUFF, if i + k = 0 then 0x06 else 0x04, 0x20, i + k,
          s.getD (4 * k) 0x20, s.getD (4 * k + 1) 0x20, s.getD (4 * k + 2) 0x20,
          s.getD (4 * k + 3) 0x20]) := by
  intro n
  induction n with
  | zero => intro i s _; rfl
  | succ n ih =>
    intro i s hi
    rw [bufWrites, ih (i + 1) (s.drop 4) (by omega), List.range_succ_eq_map, List.map_cons,
      List.map_map]
    have hi' : i % 256 = i := Nat.mod_eq_of_lt (by omega)
    congr 1
    · simp [Nat.mod_eq_of_lt hop, hi']
    · apply List.map_congr_left
      intro k _
      simp only [Function.comp, getD_drop_four, Nat.succ_eq_add_one]
      have e0 : 4 + 4 * k = 4 * (k + 1) := by omega
      have e1 : 4 + (4 * k + 1) = 4 * (k + 1) + 1 := by omega
      have e2 : 4 + (4 * k + 2) = 4 * (k + 1) + 2 := by omega
      have e3 : 4 + (4 * k + 3) = 4 * (k + 1) + 3 := by omega
      have e4 : i + 1 + k = i + (k + 1) := by omega
      rw [e0, e1, e2, e3, e4]

/-- C12: for a string `s` (its characters, none of them NUL) of length `L ≤ 255`, on a bus
that acknowledges each of the `ceil(L/4)` commands, `setRDSbuffer s` returns and the frames
it writes are exactly, for `i = 0, ..., ceil(L/4) - 1`, the eight bytes
`[TX_RDS_BUFF, flag, 0x20, i, b0, b1, b2, b3]` with `flag = 0x06` for `i = 0` and `0x04`
otherwise, and `bj = s[4i+j]` when `4i+j < L` and `0x20` otherwise (that is
`s.getD (4i+j) 0x20`). -/
theorem setRDSbuffer_slot_frames (c : Consts) (s : List Nat) (d : Dev)
    (segs : List (List Nat)) (rest : List Nat) (hop : c.CMD_TX_RDS_BUFF < 256)
    (hs : ∀ x ∈ s, x ≠ 0) (hL : s.length ≤ 255) (hbuf : 9 ≤ d._i2ccommand.length)
    (hsegs : segs.length = (s.length + 3) / 4) (hack : ∀ seg ∈ segs, IsAck c seg)
    (hrx : d.rx = segs.flatten ++ rest) :
    ∃ d' new, setRDSbuffer c s d = some d' ∧ frames d'.trace = frames d.trace ++ new ∧
      new.length = (s.length + 3) / 4 ∧
      new = (List.range ((s.length + 3) / 4)).map (fun i =>
        [c.CMD_TX_RDS_BUFF, if i = 0 then 0x06 else 0x04, 0x20, i,
          s.getD (4 * i) 0x20, s.getD (4 * i + 1) 0x20, s.getD (4 * i + 2) 0x20,
          s.getD (4 * i + 3) 0x20]) := by
  have hlen : s.length % 256 = s.length := Nat.mod_eq_of_lt (by omega)
  have hslots : ((s.length + 3) / 4) % 256 = (s.length + 3) / 4 := Nat.mod_eq_of_lt (by omega)
  have hmap := bufWrites_eq_map c hop ((s.length + 3) / 4) 0 s (by omega)
  simp only [Nat.zero_add] at hmap
  obtain ⟨d', h1, h2, _, _⟩ := buffer_loop_ack c ((s.length + 3) / 4) (by omega)
    ((s.length + 3) / 4) 0 s d segs rest hs (by omega) hsegs hack hbuf hrx
  refine ⟨d', _, ?_, h2, ?_, hmap⟩
  · simp only [setRDSbuffer, strlen_eq_length s hs, hlen, hslots]
    exact h1
  · rw [hmap]
    simp

/-- Instance of C12: the five characters of "AdaRa" go out as two buffer writes. -/
theorem setRDSbuffer_slot_frames_witness :
    ∃ d' new, setRDSbuffer si4713 [0x41, 0x64, 0x61, 0x52, 0x61]
        (Dev.fresh [0x80, 0x00, 0x80, 7]) = some d' ∧
      frames d'.trace = frames (Dev.fresh [0x80, 0x00, 0x80, 7]).trace ++ new ∧
      new.length = ([0x41, 0x64, 0x61, 0x52, 0x61].length + 3) / 4 ∧
      new = (List.range (([0x41, 0x64, 0x61, 0x52, 0x61].length + 3) / 4)).map (fun i =>
        [si4713.CMD_TX_RDS_BUFF, if i = 0 then 0x06 else 0x04, 0x20, i,
          [0x41, 0x64, 0x61, 0x52, 0x61].getD (4 * i) 0x20,
          [0x41, 0x64, 0x61, 0x52, 0x61].getD (4 * i + 1) 0x20,
          [0x41, 0x64, 0x61, 0x52, 0x61].getD (4 * i + 2) 0x20,
          [0x41, 0x64, 0x61, 0x52, 0x61].getD (4 * i + 3) 0x20]) :=
  setRDSbuffer_slot_frames si4713 [0x41, 0x64, 0x61, 0x52, 0x61]
    (Dev.fresh [0x80, 0x00, 0x80, 7]) [[0x80], [0x00, 0x80]] [7] (by decide) (by decide)
    (by decide) (by decide) (by decide)
    (fun seg hseg => by
      rcases List.mem_cons.mp hseg with h | h
      · rw [h]
        exact isAck_cts si4713 0x80 (by decide)
      · rw [List.mem_singleton.mp h]
        exact isAck_intro si4713 [0x00] 0x80 (by decide) (by decide))
    rfl

/-! ## What every operation leaves alone, and the shape of every frame -/

theorem Run.refl (ops : List Nat) (d : Dev) : Run ops d d :=
  ⟨d._i2ccommand, d.rx, [], rfl, by simp, fun _ f hf => by simp [frames] at hf⟩

theorem Run.trans {ops : List Nat} {d d1 d2 : Dev} (h1 : Run ops d d1) (h2 : Run ops d1 d2) :
    Run ops d d2 := by
  obtain ⟨b1, r1, t1, hb1, rfl, hf1⟩ := h1
  obtain ⟨b2, r2, t2, hb2, rfl, hf2⟩ := h2
  refine ⟨b2, r2, t1 ++ t2, by simpa [hb1] using hb2, by simp, ?_⟩
  intro h9 f hf
  rw [frames_append] at hf
  rcases List.mem_append.mp hf with h | h
  · exact hf1 h9 f h
  · exact hf2 (by simpa [hb1] using h9) f h

theorem Run.mono {ops ops' : List Nat} {d d' : Dev} (hsub : ∀ op ∈ ops, op ∈ ops')
    (h : Run ops d d') : Run ops' d d' := by
  obtain ⟨b, r, t, hb, hd, hf⟩ := h
  refine ⟨b, r, t, hb, hd, fun h9 f hmem => ?_⟩
  obtain ⟨h2, h8, op, hop, hhead⟩ := hf h9 f hmem
  exact ⟨h2, h8, op, hsub op hop, hhead⟩

theorem Run.keeps {ops : List Nat} {d d' : Dev} (h : Run ops d d') :
    cached d' = cached d ∧ d'._rst = d._rst ∧ d'._i2ccommand.length = d._i2ccommand.length := by
  obtain ⟨b, r, t, hb, rfl, _⟩ := h
  exact ⟨rfl, rfl, hb⟩

theorem Run.wrote {ops : List Nat} {d d' : Dev} (h : Run ops d d')
    (h9 : 9 ≤ d._i2ccommand.length) :
    ∃ new, frames d'.trace = frames d.trace ++ new ∧ ∀ f ∈ new, FrameOK ops f := by
  obtain ⟨b, r, t, _, rfl, hf⟩ := h
  exact ⟨frames t, by simp [frames_append], hf h9⟩

theorem Run.stored {ops : List Nat} {d d1 : Dev} (h : Run ops d d1) (i v : Nat) :
    Run ops d (d1.store i v) := by
  obtain ⟨b, r, t, hb, rfl, hf⟩ := h
  exact ⟨b.set i (v % 256), r, t, by simpa using hb, by simp [Dev.store], hf⟩

theorem Run.setBuf {ops : List Nat} {d d1 : Dev} (h : Run ops d d1) (buf : List Nat)
    (hbuf : buf.length = d1._i2ccommand.length) :
    Run ops d { d1 with _i2ccommand := buf } := by
  obtain ⟨b, r, t, hb, rfl, hf⟩ := h
  exact ⟨buf, r, t, by simpa [hb] using hbuf, by simp, hf⟩

theorem Run.delayed {ops : List Nat} {d d1 : Dev} (h : Run ops d d1) (ms : Nat) :
    Run ops d (delay ms d1) := by
  refine Run.trans h ⟨d1._i2ccommand, d1.rx, [Event.delay ms], rfl, by simp [delay], ?_⟩
  intro _ f hf
  simp [frames] at hf

theorem wait_some (c : Consts) :
    ∀ (rx : List Nat) (status : Nat) (tr : List Event) (rx' : List Nat) (tr' : List Event),
      sendCommand.wait c status rx tr = some (rx', tr') →
      ∃ k, tr' = tr ++ List.replicate k (Event.read 1) := by
  intro rx
  induction rx with
  | nil =>
    intro status tr rx' tr' h
    by_cases hs : status &&& c.STATUS_CTS ≠ 0
    · simp [sendCommand.wait, hs] at h
      exact ⟨0, by simp [h.2]⟩
    · simp [sendCommand.wait, hs] at h
  | cons b rx ih =>
    intro status tr rx' tr' h
    by_cases hs : status &&& c.STATUS_CTS ≠ 0
    · simp [sendCommand.wait, hs] at h
      exact ⟨0, by simp [h.2]⟩
    · simp only [sendCommand.wait, hs, if_false] at h
      obtain ⟨k, hk⟩ := ih b _ rx' tr' h
      exact ⟨k + 1, by rw [hk]; simp [List.replicate_succ]⟩

/-- Whenever `sendCommand len` returns, it has written the first `len` bytes of the scratch
buffer as one frame and changed nothing but the bus and the trace. -/
theorem sendCommand_run (c : Consts) (len op : Nat) (d d' : Dev)
    (h : sendCommand c len d = some d') (h2 : 2 ≤ len % 256) (h8 : len % 256 ≤ 8)
    (hhead : 9 ≤ d._i2ccommand.length → d._i2ccommand.head? = some op) :
    Run [op] d d' := by
  unfold sendCommand at h
  simp only [] at h
  cases hw : sendCommand.wait c 0 d.rx
      (d.trace ++ [Event.write (d._i2ccommand.take (len % 256))]) with
  | none => simp [hw] at h
  | some res =>
    obtain ⟨rx', tr'⟩ := res
    simp only [hw, Option.some.injEq] at h
    obtain ⟨k, hk⟩ := wait_some c _ _ _ _ _ hw
    refine ⟨d._i2ccommand, rx', Event.write (d._i2ccommand.take (len % 256))
      :: List.replicate k (Event.read 1), rfl, ?_, ?_⟩
    · rw [← h, hk]
      simp
    · intro h9 f hf
      simp only [frames, frames_replicate_read, List.mem_singleton] at hf
      subst hf
      refine ⟨by simp; omega, by simp; omega, op, by simp, ?_⟩
      have hh := hhead h9
      cases hl : d._i2ccommand with
      | nil => simp [hl] at h9
      | cons a t =>
        rw [hl] at hh
        obtain ⟨m, hm⟩ : ∃ m, len % 256 = m + 1 := ⟨len % 256 - 1, by omega⟩
        simpa [hm] using hh

theorem head_set_zero (l : List Nat) (a : Nat) (h : 1 ≤ l.length) :
    (l.set 0 a).head? = some a := by
  cases l with
  | nil => simp at h
  | cons x t => rfl

theorem head_set_succ (l : List Nat) (i a : Nat) : (l.set (i + 1) a).head? = l.head? := by
  cases l <;> rfl

theorem getStatus_run (c : Consts) (d d' : Dev) (st : Nat)
    (h : getStatus c d = some (st, d')) : Run [] d d' := by
  unfold getStatus at h
  cases hrx : d.rx with
  | nil => simp [hrx] at h
  | cons b rx =>
    simp only [hrx, Option.some.injEq, Prod.mk.injEq] at h
    refine ⟨d._i2ccommand, rx, [Event.writeThenRead [c.CMD_GET_INT_STATUS % 256] 1], rfl,
      h.2.symm, ?_⟩
    intro _ f hf
    simp [frames] at hf

theorem busRead_run (n : Nat) (d d' : Dev) (r : List Nat) (h : busRead n d = some (r, d')) :
    Run [] d d' := by
  unfold busRead at h
  split at h
  · simp at h
  · simp only [Option.some.injEq, Prod.mk.injEq] at h
    refine ⟨d._i2ccommand, d.rx.drop n, [Event.read n], rfl, h.2.symm, ?_⟩
    intro _ f hf
    simp [frames] at hf

theorem reset_run (d : Dev) : Run [] d (reset d) := by
  unfold reset
  split
  · refine ⟨d._i2ccommand, d.rx, _, rfl, rfl, ?_⟩
    intro _ f hf
    simp [frames] at hf
  · exact Run.refl [] d

theorem tuneFM_poll_run (c : Consts) :
    ∀ (fuel : Nat) (d d' : Dev), tuneFM.poll c fuel d = some d' → Run [] d d' := by
  intro fuel
  induction fuel with
  | zero => intro d d' h; simp [tuneFM.poll] at h
  | succ f ih =>
    intro d d' h
    unfold tuneFM.poll at h
    cases hg : getStatus c d with
    | none => simp [hg] at h
    | some res =>
      obtain ⟨st, d1⟩ := res
      simp only [hg] at h
      have h1 := getStatus_run c d d1 st hg
      split at h
      · exact Run.trans (h1.delayed 10) (ih _ _ h)
      · simp only [Option.some.injEq] at h
        exact h ▸ h1

theorem readTuneMeasure_poll_run (c : Consts) :
    ∀ (fuel : Nat) (d d' : Dev), readTuneMeasure.poll c fuel d = some d' → Run [] d d' := by
  intro fuel
  induction fuel with
  | zero => intro d d' h; simp [readTuneMeasure.poll] at h
  | succ f ih =>
    intro d d' h
    unfold readTuneMeasure.poll at h
    cases hg : getStatus c d with
    | none => simp [hg] at h
    | some res =>
      obtain ⟨st, d1⟩ := res
      simp only [hg] at h
      have h1 := getStatus_run c d d1 st hg
      split at h
      · exact Run.trans (h1.delayed 10) (ih _ _ h)
      · simp only [Option.some.injEq] at h
        exact h ▸ h1

theorem setProperty_run (c : Consts) (p v : Nat) (d d' : Dev)
    (h : setProperty c p v d = some d') : Run [c.CMD_SET_PROPERTY % 256] d d' := by
  unfold setProperty at h
  simp only [] at h
  refine Run.trans
    (((((((Run.refl _ d).stored 0 _).stored 1 _).stored 2 _).stored 3 _).stored 4 _).stored 5 _)
    (sendCommand_run c 6 _ _ _ h (by decide) (by decide) ?_)
  intro h9
  simp only [Dev.store, head_set_succ]
  exact head_set_zero _ _ (by simp [Dev.store] at h9; omega)

theorem setProperties_run (c : Consts) :
    ∀ (pvs : List (Nat × Nat)) (d d' : Dev), setProperties c pvs d = some d' →
      Run [c.CMD_SET_PROPERTY % 256] d d' := by
  intro pvs
  induction pvs with
  | nil =>
    intro d d' h
    simp only [setProperties, Option.some.injEq] at h
    exact h ▸ Run.refl _ d
  | cons pv pvs ih =>
    intro d d' h
    simp only [setProperties, Option.bind_eq_some] at h
    obtain ⟨d1, h1, h2⟩ := h
    exact Run.trans (setProperty_run c _ _ d d1 h1) (ih d1 d' h2)

theorem beginRDS_run (c : Consts) (P : Nat) (d d' : Dev) (h : beginRDS c P d = some d') :
    Run [c.CMD_SET_PROPERTY % 256] d d' := by
  rw [beginRDS_eq] at h
  exact setProperties_run c _ d d' h

theorem tuneFM_run (c : Consts) (F : Nat) (d d' : Dev) (h : tuneFM c F d = some d') :
    Run [c.CMD_TX_TUNE_FREQ % 256] d d' := by
  unfold tuneFM at h
  simp only [Option.bind_eq_bind, Option.bind_eq_some] at h
  obtain ⟨d1, h1, h2⟩ := h
  refine Run.trans (Run.trans
    (((((Run.refl _ d).stored 0 _).stored 1 _).stored 2 _).stored 3 _)
    (sendCommand_run c 4 _ _ _ h1 (by decide) (by decide) ?_))
    (Run.mono (by simp) (tuneFM_poll_run c _ d1 d' h2))
  intro h9
  simp only [Dev.store, head_set_succ]
  exact head_set_zero _ _ (by simp [Dev.store] at h9; omega)

theorem readTuneMeasure_run (c : Consts) (f : Nat) (d d' : Dev)
    (h : readTuneMeasure c f d = some d') : Run [c.CMD_TX_TUNE_MEASURE % 256] d d' := by
  unfold readTuneMeasure at h
  simp only [Option.bind_eq_bind, Option.bind_eq_some] at h
  obtain ⟨d1, h1, h2⟩ := h
  refine Run.trans (Run.trans
    ((((((Run.refl _ d).stored 0 _).stored 1 _).stored 2 _).stored 3 _).stored 4 _)
    (sendCommand_run c 5 _ _ _ h1 (by decide) (by decide) ?_))
    (Run.mono (by simp) (readTuneMeasure_poll_run c _ d1 d' h2))
  intro h9
  simp only [Dev.store, head_set_succ]
  exact head_set_zero _ _ (by simp [Dev.store] at h9; omega)

theorem setTXpower_run (c : Consts) (pwr antcap : Nat) (d d' : Dev)
    (h : setTXpower c pwr antcap d = some d') : Run [c.CMD_TX_TUNE_POWER % 256] d d' := by
  unfold setTXpower at h
  simp only [] at h
  refine Run.trans
    ((((((Run.refl _ d).stored 0 _).stored 1 _).stored 2 _).stored 3 _).stored 4 _)
    (sendCommand_run c 5 _ _ _ h (by decide) (by decide) ?_)
  intro h9
  simp only [Dev.store, head_set_succ]
  exact head_set_zero _ _ (by simp [Dev.store] at h9; omega)

theorem setGPIOctrl_run (c : Consts) (x : Nat) (d d' : Dev)
    (h : setGPIOctrl c x d = some d') : Run [c.CMD_GPO_CTL % 256] d d' := by
  unfold setGPIOctrl at h
  simp only [] at h
  refine Run.trans (((Run.refl _ d).stored 0 _).stored 1 _)
    (sendCommand_run c 2 _ _ _ h (by decide) (by decide) ?_)
  intro h9
  simp only [Dev.store, head_set_succ]
  exact head_set_zero _ _ (by simp [Dev.store] at h9; omega)

theorem setGPIO_run (c : Consts) (x : Nat) (d d' : Dev)
    (h : setGPIO c x d = some d') : Run [c.CMD_GPO_SET % 256] d d' := by
  unfold setGPIO at h
  simp only [] at h
  refine Run.trans (((Run.refl _ d).stored 0 _).stored 1 _)
    (sendCommand_run c 2 _ _ _ h (by decide) (by decide) ?_)
  intro h9
  simp only [Dev.store, head_set_succ]
  exact head_set_zero _ _ (by simp [Dev.store] at h9; omega)

theorem readASQ_run (c : Consts) (d d' : Dev) (h : readASQ c d = some d') :
    ∃ d2 a b, Run [c.CMD_TX_ASQ_STATUS % 256] d d2 ∧
      d' = { d2 with currASQ := a, currInLevel := b } := by
  unfold readASQ at h
  simp only [Option.bind_eq_bind, Option.bind_eq_some] at h
  obtain ⟨d1, h1, x, h2, h3⟩ := h
  obtain ⟨resp, d2⟩ := x
  simp only [Option.some.injEq] at h3
  refine ⟨d2, _, _, Run.trans (Run.trans (((Run.refl _ d).stored 0 _).stored 1 _)
    (sendCommand_run c 2 _ _ _ h1 (by decide) (by decide) ?_))
    (Run.mono (by simp) (busRead_run 5 d1 d2 resp h2)), h3.symm⟩
  intro h9
  simp only [Dev.store, head_set_succ]
  exact head_set_zero _ _ (by simp [Dev.store] at h9; omega)

theorem readTuneStatus_run (c : Consts) (d d' : Dev) (h : readTuneStatus c d = some d') :
    ∃ d2 a b e f, Run [c.CMD_TX_TUNE_STATUS % 256] d d2 ∧
      d' = { d2 with currFreq := a, currdBuV := b, currAntCap := e, currNoiseLevel := f } := by
  unfold readTuneStatus at h
  simp only [Option.bind_eq_bind, Option.bind_eq_some] at h
  obtain ⟨d1, h1, x, h2, h3⟩ := h
  obtain ⟨resp, d2⟩ := x
  simp only [Option.some.injEq] at h3
  refine ⟨d2, _, _, _, _, Run.trans (Run.trans (((Run.refl _ d).stored 0 _).stored 1 _)
    (sendCommand_run c 2 _ _ _ h1 (by decide) (by decide) ?_))
    (Run.mono (by simp) (busRead_run 8 d1 d2 resp h2)), h3.symm⟩
  intro h9
  simp only [Dev.store, head_set_succ]
  exact head_set_zero _ _ (by simp [Dev.store] at h9; omega)

theorem getRev_run (c : Consts) (d d' : Dev) (pn : Nat) (h : getRev c d = some (pn, d')) :
    Run [c.CMD_GET_REV % 256] d d' := by
  unfold getRev at h
  simp only [Option.bind_eq_bind, Option.bind_eq_some] at h
  obtain ⟨d1, h1, x, h2, h3⟩ := h
  obtain ⟨resp, d2⟩ := x
  simp only [Option.some.injEq, Prod.mk.injEq] at h3
  rw [← h3.2]
  refine Run.trans (Run.trans (((Run.refl _ d).stored 0 _).stored 1 _)
    (sendCommand_run c 2 _ _ _ h1 (by decide) (by decide) ?_))
    (Run.mono (by simp) (busRead_run 9 d1 d2 resp h2))
  intro h9
  simp only [Dev.store, head_set_succ]
  exact head_set_zero _ _ (by simp [Dev.store] at h9; omega)

theorem powerUp_run (c : Consts) (d d' : Dev) (h : powerUp c d = some d') :
    Run [c.CMD_POWER_UP % 256, c.CMD_SET_PROPERTY % 256] d d' := by
  unfold powerUp at h
  simp only [Option.bind_eq_bind, Option.bind_eq_some] at h
  obtain ⟨d1, h1, d2, h2, d3, h3, d4, h4, h5⟩ := h
  have hs : ∀ x, x ∈ [c.CMD_SET_PROPERTY % 256]
      → x ∈ [c.CMD_POWER_UP % 256, c.CMD_SET_PROPERTY % 256] := by
    intro x hx
    simp only [List.mem_singleton] at hx
    simp [hx]
  have hp : ∀ x, x ∈ [c.CMD_POWER_UP % 256]
      → x ∈ [c.CMD_POWER_UP % 256, c.CMD_SET_PROPERTY % 256] := by
    intro x hx
    simp only [List.mem_singleton] at hx
    simp [hx]
  refine Run.trans (Run.trans ((((Run.refl _ d).stored 0 _).stored 1 _).stored 2 _)
    (Run.mono hp (sendCommand_run c 3 _ _ _ h1 (by decide) (by decide) ?_)))
    (Run.trans (Run.mono hs (setProperty_run c _ _ _ _ h2))
      (Run.trans (Run.mono hs (setProperty_run c _ _ _ _ h3))
        (Run.trans (Run.mono hs (setProperty_run c _ _ _ _ h4))
          (Run.mono hs (setProperty_run c _ _ _ _ h5)))))
  intro h9
  simp only [Dev.store, head_set_succ]
  exact head_set_zero _ _ (by simp [Dev.store] at h9; omega)

theorem begin_run (c : Consts) (busOpens res : Bool) (d d' : Dev)
    (h : begin c busOpens d = some (res, d')) :
    Run [c.CMD_POWER_UP % 256, c.CMD_SET_PROPERTY % 256, c.CMD_GET_REV % 256] d d' := by
  unfold begin at h
  cases busOpens with
  | false =>
    simp only [Bool.not_false, if_true, Option.some.injEq, Prod.mk.injEq] at h
    exact h.2 ▸ Run.refl _ d
  | true =>
    simp only [Bool.not_true, Bool.false_eq_true, if_false, Option.bind_eq_bind,
      Option.bind_eq_some] at h
    obtain ⟨d1, h1, x, h2, h3⟩ := h
    obtain ⟨rev, d2⟩ := x
    have hd : d2 = d' := by
      split at h3 <;> simp only [Option.some.injEq, Prod.mk.injEq] at h3 <;> exact h3.2
    rw [← hd]
    exact Run.trans (Run.mono (by simp) (reset_run d))
      (Run.trans (Run.mono (fun x hx => by
          simp only [List.mem_cons, List.mem_singleton, List.not_mem_nil, or_false] at hx ⊢
          tauto) (powerUp_run c _ d1 h1))
        (Run.mono (fun x hx => by
          simp only [List.mem_cons, List.mem_singleton, List.not_mem_nil, or_false] at hx ⊢
          tauto) (getRev_run c d1 d2 rev h2)))

theorem station_slot_run (c : Consts) (i : Nat) (s : List Nat) (d d' : Dev)
    (h : setRDSstation.slot c i s d = some d') : Run [c.CMD_TX_RDS_PS % 256] d d' := by
  unfold setRDSstation.slot at h
  simp only [] at h
  refine Run.trans
    ((((((Run.refl _ d).setBuf (memset d._i2ccommand 0x20 6) (length_memset _ _ _)).setBuf
      (memcpy (memset d._i2ccommand 0x20 6) 2 s (min 4 (strlen s)))
      (by simp [length_memcpy])).stored 6 _).stored 0 _).stored 1 _)
    (sendCommand_run c 6 _ _ _ h (by decide) (by decide) ?_)
  intro h9
  simp only [Dev.store, head_set_succ]
  exact head_set_zero _ _ (by simp [Dev.store, length_memcpy, length_memset] at h9 ⊢; omega)

theorem station_loop_run (c : Consts) (slots : Nat) :
    ∀ (fuel i : Nat) (s : List Nat) (d d' : Dev),
      setRDSstation.loop c slots fuel i s d = some d' → Run [c.CMD_TX_RDS_PS % 256] d d' := by
  intro fuel
  induction fuel with
  | zero =>
    intro i s d d' h
    unfold setRDSstation.loop at h
    split at h
    · simp at h
    · simp only [Option.some.injEq] at h
      exact h ▸ Run.refl _ d
  | succ f ih =>
    intro i s d d' h
    unfold setRDSstation.loop at h
    split at h
    · simp only [Option.bind_eq_bind, Option.bind_eq_some] at h
      obtain ⟨d1, h1, h2⟩ := h
      exact Run.trans (station_slot_run c i s d d1 h1) (ih _ _ d1 d' h2)
    · simp only [Option.some.injEq] at h
      exact h ▸ Run.refl _ d

theorem setRDSstation_run (c : Consts) (s : List Nat) (d d' : Dev)
    (h : setRDSstation c s d = some d') : Run [c.CMD_TX_RDS_PS % 256] d d' :=
  station_loop_run c _ _ _ _ d d' h

theorem buffer_slot_run (c : Consts) (i : Nat) (s : List Nat) (d d' : Dev)
    (h : setRDSbuffer.slot c i s d = some d') : Run [c.CMD_TX_RDS_BUFF % 256] d d' := by
  unfold setRDSbuffer.slot at h
  simp only [] at h
  have hpre : Run [c.CMD_TX_RDS_BUFF % 256] d
      (({ ({ d with _i2ccommand := memset d._i2ccommand 0x20 8 } : Dev) with
        _i2ccommand := memcpy (memset d._i2ccommand 0x20 8) 4 s (min 4 (strlen s)) } : Dev).store
          8 0 |>.store 0 c.CMD_TX_RDS_BUFF) :=
    ((((Run.refl _ d).setBuf (memset d._i2ccommand 0x20 8) (length_memset _ _ _)).setBuf
      (memcpy (memset d._i2ccommand 0x20 8) 4 s (min 4 (strlen s)))
      (by simp [length_memcpy])).stored 8 _).stored 0 _
  by_cases hi : i = 0
  · simp only [hi, if_true] at h
    refine Run.trans (((hpre.stored 1 _).stored 2 _).stored 3 _)
      (sendCommand_run c 8 _ _ _ h (by decide) (by decide) ?_)
    intro h9
    simp only [Dev.store, head_set_succ]
    exact head_set_zero _ _ (by simp [Dev.store, length_memcpy, length_memset] at h9 ⊢; omega)
  · simp only [hi, if_false] at h
    refine Run.trans (((hpre.stored 1 _).stored 2 _).stored 3 _)
      (sendCommand_run c 8 _ _ _ h (by decide) (by decide) ?_)
    intro h9
    simp only [Dev.store, head_set_succ]
    exact head_set_zero _ _ (by simp [Dev.store, length_memcpy, length_memset] at h9 ⊢; omega)

theorem buffer_loop_run (c : Consts) (slots : Nat) :
    ∀ (fuel i : Nat) (s : List Nat) (d d' : Dev),
      setRDSbuffer.loop c slots fuel i s d = some d' → Run [c.CMD_TX_RDS_BUFF % 256] d d' := by
  intro fuel
  induction fuel with
  | zero =>
    intro i s d d' h
    unfold setRDSbuffer.loop at h
    split at h
    · simp at h
    · simp only [Option.some.injEq] at h
      exact h ▸ Run.refl _ d
  | succ f ih =>
    intro i s d d' h
    unfold setRDSbuffer.loop at h
    split at h
    · simp only [Option.bind_eq_bind, Option.bind_eq_some] at h
      obtain ⟨d1, h1, h2⟩ := h
      exact Run.trans (buffer_slot_run c i s d d1 h1) (ih _ _ d1 d' h2)
    · simp only [Option.some.injEq] at h
      exact h ▸ Run.refl _ d

theorem setRDSbuffer_run (c : Consts) (s : List Nat) (d d' : Dev)
    (h : setRDSbuffer c s d = some d') : Run [c.CMD_TX_RDS_BUFF % 256] d d' :=
  buffer_loop_run c _ _ _ _ d d' h

/-- C17: whenever it returns, `readASQ` leaves `currFreq`, `currdBuV`, `currAntCap` and
`currNoiseLevel` as they were; `readTuneStatus` leaves `currASQ` and `currInLevel` as they
were; and `tuneFM`, `readTuneMeasure`, `setTXpower`, `setProperty`, `beginRDS`,
`setRDSstation`, `setRDSbuffer` and `getStatus` leave all six cached fields as they were,
whatever their arguments and whatever the bus delivers. -/
theorem cached_fields_frame (c : Consts) (d d' : Dev) :
    (readASQ c d = some d' →
      d'.currFreq = d.currFreq ∧ d'.currdBuV = d.currdBuV ∧ d'.currAntCap = d.currAntCap ∧
      d'.currNoiseLevel = d.currNoiseLevel) ∧
    (readTuneStatus c d = some d' →
      d'.currASQ = d.currASQ ∧ d'.currInLevel = d.currInLevel) ∧
    (∀ F, tuneFM c F d = some d' → cached d' = cached d) ∧
    (∀ f, readTuneMeasure c f d = some d' → cached d' = cached d) ∧
    (∀ pwr antcap, setTXpower c pwr antcap d = some d' → cached d' = cached d) ∧
    (∀ p v, setProperty c p v d = some d' → cached d' = cached d) ∧
    (∀ P, beginRDS c P d = some d' → cached d' = cached d) ∧
    (∀ s, setRDSstation c s d = some d' → cached d' = cached d) ∧
    (∀ s, setRDSbuffer c s d = some d' → cached d' = cached d) ∧
    (∀ st, getStatus c d = some (st, d') → cached d' = cached d) := by
  refine ⟨?_, ?_, fun F h => (tuneFM_run c F d d' h).keeps.1,
    fun f h => (readTuneMeasure_run c f d d' h).keeps.1,
    fun pwr antcap h => (setTXpower_run c pwr antcap d d' h).keeps.1,
    fun p v h => (setProperty_run c p v d d' h).keeps.1,
    fun P h => (beginRDS_run c P d d' h).keeps.1,
    fun s h => (setRDSstation_run c s d d' h).keeps.1,
    fun s h => (setRDSbuffer_run c s d d' h).keeps.1,
    fun st h => (getStatus_run c d d' st h).keeps.1⟩
  · intro h
    obtain ⟨d2, a, b, hrun, rfl⟩ := readASQ_run c d d' h
    have hk := hrun.keeps.1
    simp only [cached, Prod.mk.injEq] at hk
    exact ⟨hk.1, hk.2.1, hk.2.2.1, hk.2.2.2.1⟩
  · intro h
    obtain ⟨d2, a, b, e, f, hrun, rfl⟩ := readTuneStatus_run c d d' h
    have hk := hrun.keeps.1
    simp only [cached, Prod.mk.injEq] at hk
    exact ⟨hk.2.2.2.2.1, hk.2.2.2.2.2⟩

/-- Instance of C17: a noise measurement at 8810 returns and leaves the six cached fields
of a fresh driver as they were. -/
theorem cached_fields_frame_witness :
    ∃ d', readTuneMeasure si4713 8810 (Dev.fresh [0x80, 0x81, 7]) = some d' ∧
      cached d' = cached (Dev.fresh [0x80, 0x81, 7]) :=
  ⟨_, readTuneMeasure_ack si4713 8810 (Dev.fresh [0x80, 0x81, 7]) [0x80] [] [7] (by decide)
      (isAck_cts si4713 0x80 (by decide)) (by simp) rfl,
    (cached_fields_frame si4713 (Dev.fresh [0x80, 0x81, 7]) _).2.2.2.1 8810
      (readTuneMeasure_ack si4713 8810 (Dev.fresh [0x80, 0x81, 7]) [0x80] [] [7] (by decide)
        (isAck_cts si4713 0x80 (by decide)) (by simp) rfl)⟩

/-- C18: with a scratch buffer of at least nine bytes and one-byte opcodes, whenever a
public operation returns, every frame it has handed to `sendCommand` is between 2 and 8
bytes long and starts with an opcode of that operation: POWER_UP, SET_PROPERTY or GET_REV
for `begin`, POWER_UP or SET_PROPERTY for `powerUp`, SET_PROPERTY for `setProperty` and
`beginRDS`, and the operation's own opcode for the others; for all arguments and whatever
the bus delivers. -/
theorem frames_well_formed (c : Consts) (d d' : Dev)
    (hops : ∀ op ∈ [c.CMD_POWER_UP, c.CMD_GET_REV, c.CMD_SET_PROPERTY, c.CMD_TX_TUNE_FREQ,
      c.CMD_TX_TUNE_POWER, c.CMD_TX_TUNE_MEASURE, c.CMD_TX_TUNE_STATUS, c.CMD_TX_ASQ_STATUS,
      c.CMD_TX_RDS_BUFF, c.CMD_TX_RDS_PS, c.CMD_GPO_CTL, c.CMD_GPO_SET], op < 256)
    (hbuf : 9 ≤ d._i2ccommand.length) :
    (∀ busOpens res, begin c busOpens d = some (res, d') →
      Wrote [c.CMD_POWER_UP, c.CMD_SET_PROPERTY, c.CMD_GET_REV] d d') ∧
    (powerUp c d = some d' → Wrote [c.CMD_POWER_UP, c.CMD_SET_PROPERTY] d d') ∧
    (∀ p v, setProperty c p v d = some d' → Wrote [c.CMD_SET_PROPERTY] d d') ∧
    (∀ F, tuneFM c F d = some d' → Wrote [c.CMD_TX_TUNE_FREQ] d d') ∧
    (∀ pwr antcap, setTXpower c pwr antcap d = some d' → Wrote [c.CMD_TX_TUNE_POWER] d d') ∧
    (readASQ c d = some d' → Wrote [c.CMD_TX_ASQ_STATUS] d d') ∧
    (readTuneStatus c d = some d' → Wrote [c.CMD_TX_TUNE_STATUS] d d') ∧
    (∀ f, readTuneMeasure c f d = some d' → Wrote [c.CMD_TX_TUNE_MEASURE] d d') ∧
    (∀ P, beginRDS c P d = some d' → Wrote [c.CMD_SET_PROPERTY] d d') ∧
    (∀ s, setRDSstation c s d = some d' → Wrote [c.CMD_TX_RDS_PS] d d') ∧
    (∀ s, setRDSbuffer c s d = some d' → Wrote [c.CMD_TX_RDS_BUFF] d d') ∧
    (∀ pn, getRev c d = some (pn, d') → Wrote [c.CMD_GET_REV] d d') ∧
    (∀ x, setGPIOctrl c x d = some d' → Wrote [c.CMD_GPO_CTL] d d') ∧
    (∀ x, setGPIO c x d = some d' → Wrote [c.CMD_GPO_SET] d d') := by
  have e1 : c.CMD_POWER_UP % 256 = c.CMD_POWER_UP := Nat.mod_eq_of_lt (hops _ (by simp))
  have e2 : c.CMD_GET_REV % 256 = c.CMD_GET_REV := Nat.mod_eq_of_lt (hops _ (by simp))
  have e3 : c.CMD_SET_PROPERTY % 256 = c.CMD_SET_PROPERTY := Nat.mod_eq_of_lt (hops _ (by simp))
  have e4 : c.CMD_TX_TUNE_FREQ % 256 = c.CMD_TX_TUNE_FREQ := Nat.mod_eq_of_lt (hops _ (by simp))
  have e5 : c.CMD_TX_TUNE_POWER % 256 = c.CMD_TX_TUNE_POWER :=
    Nat.mod_eq_of_lt (hops _ (by simp))
  have e6 : c.CMD_TX_TUNE_MEASURE % 256 = c.CMD_TX_TUNE_MEASURE :=
    Nat.mod_eq_of_lt (hops _ (by simp))
  have e7 : c.CMD_TX_TUNE_STATUS % 256 = c.CMD_TX_TUNE_STATUS :=
    Nat.mod_eq_of_lt (hops _ (by simp))
  have e8 : c.CMD_TX_ASQ_STATUS % 256 = c.CMD_TX_ASQ_STATUS :=
    Nat.mod_eq_of_lt (hops _ (by simp))
  have e9 : c.CMD_TX_RDS_BUFF % 256 = c.CMD_TX_RDS_BUFF := Nat.mod_eq_of_lt (hops _ (by simp))
  have e10 : c.CMD_TX_RDS_PS % 256 = c.CMD_TX_RDS_PS := Nat.mod_eq_of_lt (hops _ (by simp))
  have e11 : c.CMD_GPO_CTL % 256 = c.CMD_GPO_CTL := Nat.mod_eq_of_lt (hops _ (by simp))
  have e12 : c.CMD_GPO_SET % 256 = c.CMD_GPO_SET := Nat.mod_eq_of_lt (hops _ (by simp))
  refine ⟨?_, ?_, ?_, ?_, ?_, ?_, ?_, ?_, ?_, ?_, ?_, ?_, ?_, ?_⟩
  · intro busOpens res h
    have := (begin_run c busOpens res d d' h).wrote hbuf
    rwa [e1, e2, e3] at this
  · intro h
    have := (powerUp_run c d d' h).wrote hbuf
    rwa [e1, e3] at this
  · intro p v h
    have := (setProperty_run c p v d d' h).wrote hbuf
    rwa [e3] at this
  · intro F h
    have := (tuneFM_run c F d d' h).wrote hbuf
    rwa [e4] at this
  · intro pwr antcap h
    have := (setTXpower_run c pwr antcap d d' h).wrote hbuf
    rwa [e5] at this
  · intro h
    obtain ⟨d2, a, b, hrun, rfl⟩ := readASQ_run c d d' h
    have := hrun.wrote hbuf
    rwa [e8] at this
  · intro h
    obtain ⟨d2, a, b, e, f, hrun, rfl⟩ := readTuneStatus_run c d d' h
    have := hrun.wrote hbuf
    rwa [e7] at this
  · intro f h
    have := (readTuneMeasure_run c f d d' h).wrote hbuf
    rwa [e6] at this
  · intro P h
    have := (beginRDS_run c P d d' h).wrote hbuf
    rwa [e3] at this
  · intro s h
    have := (setRDSstation_run c s d d' h).wrote hbuf
    rwa [e10] at this
  · intro s h
    have := (setRDSbuffer_run c s d d' h).wrote hbuf
    rwa [e9] at this
  · intro pn h
    have := (getRev_run c d d' pn h).wrote hbuf
    rwa [e2] at this
  · intro x h
    have := (setGPIOctrl_run c x d d' h).wrote hbuf
    rwa [e11] at this
  · intro x h
    have := (setGPIO_run c x d d' h).wrote hbuf
    rwa [e12] at this

/-- Instance of C18: setting property 0x2101 to 6625 on a fresh driver returns, and the
frame written is well formed. -/
theorem frames_well_formed_witness :
    ∃ d', setProperty si4713 0x2101 6625 (Dev.fresh [0x80, 7]) = some d' ∧
      Wrote [si4713.CMD_SET_PROPERTY] (Dev.fresh [0x80, 7]) d' :=
  ⟨_, setProperty_ack si4713 0x2101 6625 (Dev.fresh [0x80, 7]) [0x80] [7] (by decide)
      (isAck_cts si4713 0x80 (by decide)) rfl,
    (frames_well_formed si4713 (Dev.fresh [0x80, 7]) _ (by decide) (by decide)).2.2.1 0x2101 6625
      (setProperty_ack si4713 0x2101 6625 (Dev.fresh [0x80, 7]) [0x80] [7] (by decide)
        (isAck_cts si4713 0x80 (by decide)) rfl)⟩

end Si4713
